import Mathlib

/-!
Verification of the custom-USB-function core of the usb-gadget crate.

The definitions below are a shallow embedding of the Rust sources:
`src/function/custom/ffs.rs` (FunctionFS descriptor and string codec),
`src/function/custom/mod.rs` (builder, control-transfer state machine,
endpoint handles) and `src/function/custom/aio/mod.rs` (AIO reactor).
Byte strings are modelled as `List Nat` with each element a byte value,
machine-integer conversions (`try_into`) are modelled explicitly, and
fallible Rust functions returning `Result` are modelled with `Except`.
-/

namespace UsbGadget

/-- Little-endian encoding of a 16-bit value as two bytes, mirroring write_u16 LE. -/
def u16le (n : Nat) : List Nat := [n % 256, n / 256 % 256]

/-- Little-endian encoding of a 32-bit value as four bytes, mirroring write_u32 LE. -/
def u32le (n : Nat) : List Nat :=
  [n % 256, n / 256 % 256, n / 65536 % 256, n / 16777216 % 256]

/-- Little-endian encoding of a signed 32-bit value (two's complement), mirroring write_i32 LE. -/
def i32le (n : Int) : List Nat := u32le (n % 4294967296).toNat

/-- Conversion to u8, failing on overflow, mirroring Rust try_into for u8. -/
def tryIntoU8 (n : Nat) : Option Nat := if n ≤ 255 then some n else none

/-- Conversion to u16, failing on overflow, mirroring Rust try_into for u16. -/
def tryIntoU16 (n : Nat) : Option Nat := if n ≤ 65535 then some n else none

/-- Conversion to u32, failing on overflow, mirroring Rust try_into for u32. -/
def tryIntoU32 (n : Nat) : Option Nat := if n < 4294967296 then some n else none

/-- Read a single byte from a byte stream, mirroring read_u8. -/
def readU8 (data : List Nat) : Option (Nat × List Nat) :=
  match data with
  | [] => none
  | b :: rest => some (b, rest)

/-- Read a little-endian 16-bit value from a byte stream, mirroring read_u16 LE. -/
def readU16le (data : List Nat) : Option (Nat × List Nat) :=
  match data with
  | b0 :: b1 :: rest => some (b0 + 256 * b1, rest)
  | _ => none

/-- In-place patch of a byte vector, mirroring data[pos..pos+repl.len()].copy_from_slice(repl). -/
def patchBytes (data : List Nat) (pos : Nat) (repl : List Nat) : List Nat :=
  data.take pos ++ repl ++ data.drop (pos + repl.length)

/-- Lift an optional value into Except with the given error, mirroring the ? operator
on a fallible integer conversion. -/
def exceptOfOption {ε α : Type} (e : ε) : Option α → Except ε α
  | some a => .ok a
  | none => .error e

/-! Error type of the FunctionFS codec (ffs.rs, enum Error). -/

/-- Errors of the FunctionFS codec. -/
inductive FfsError
  /-- String count differs across languages. -/
  | stringsDifferAcrossLanguages
  /-- Too many descriptor entries. -/
  | overflow
deriving DecidableEq, Repr

/-- USB direction to device (ffs.rs, DIR_OUT). -/
def DIR_OUT : Nat := 0x00

/-- USB direction to host (ffs.rs, DIR_IN). -/
def DIR_IN : Nat := 0x80

/-- FunctionFS descriptor flags (ffs.rs, bitflags Flags), one Bool per bit. -/
structure Flags where
  has_fs_desc : Bool := false
  has_hs_desc : Bool := false
  has_ss_desc : Bool := false
  has_ms_os_desc : Bool := false
  virtual_addr : Bool := false
  eventfd : Bool := false
  all_ctrl_recip : Bool := false
  config0_setup : Bool := false
deriving DecidableEq, Repr

/-- Bit pattern of a flag set (Flags::bits). -/
def Flags.bits (f : Flags) : Nat :=
  (if f.has_fs_desc then 1 else 0) + (if f.has_hs_desc then 2 else 0) +
  (if f.has_ss_desc then 4 else 0) + (if f.has_ms_os_desc then 8 else 0) +
  (if f.virtual_addr then 16 else 0) + (if f.eventfd then 32 else 0) +
  (if f.all_ctrl_recip then 64 else 0) + (if f.config0_setup then 128 else 0)

/-- USB interface descriptor (ffs.rs, InterfaceDesc). -/
structure InterfaceDesc where
  interface_number : Nat
  alternate_setting : Nat
  num_endpoints : Nat
  interface_class : Nat
  interface_sub_class : Nat
  interface_protocol : Nat
  name_idx : Nat
deriving DecidableEq, Repr

/-- Descriptor type of InterfaceDesc (ffs.rs, InterfaceDesc::TYPE). -/
def InterfaceDesc.TYPE : Nat := 0x04

/-- Body bytes written by InterfaceDesc::write. -/
def InterfaceDesc.writeBytes (d : InterfaceDesc) : List Nat :=
  [InterfaceDesc.TYPE, d.interface_number, d.alternate_setting, d.num_endpoints,
   d.interface_class, d.interface_sub_class, d.interface_protocol, d.name_idx]

/-- Audio part of a USB endpoint descriptor (ffs.rs, AudioEndpointDesc). -/
structure AudioEndpointDesc where
  refresh : Nat
  synch_address : Nat
deriving DecidableEq, Repr

/-- USB endpoint descriptor (ffs.rs, EndpointDesc). -/
structure EndpointDesc where
  endpoint_address : Nat
  attributes : Nat
  max_packet_size : Nat
  interval : Nat
  audio : Option AudioEndpointDesc
deriving DecidableEq, Repr

/-- Endpoint descriptor type (ffs.rs, EndpointDesc::TYPE). -/
def EndpointDesc.TYPE : Nat := 0x05

/-- Endpoint descriptor size without audio (ffs.rs, EndpointDesc::SIZE). -/
def EndpointDesc.SIZE : Nat := 7

/-- Endpoint descriptor size with audio (ffs.rs, EndpointDesc::AUDIO_SIZE). -/
def EndpointDesc.AUDIO_SIZE : Nat := 9

/-- Body bytes written by EndpointDesc::write. -/
def EndpointDesc.writeBytes (d : EndpointDesc) : List Nat :=
  [EndpointDesc.TYPE, d.endpoint_address, d.attributes] ++ u16le d.max_packet_size ++
  [d.interval] ++
  (match d.audio with
   | some a => [a.refresh, a.synch_address]
   | none => [])

/-- Parse an endpoint descriptor from raw descriptor data (ffs.rs, EndpointDesc::parse).
Failure (an io::Error in the source) is modelled as none. -/
def EndpointDesc.parse (data : List Nat) : Option EndpointDesc := do
  let (size, data) ← readU8 data
  if size ≠ EndpointDesc.SIZE ∧ size ≠ EndpointDesc.AUDIO_SIZE then
    failure
  else
    let (ty, data) ← readU8 data
    if ty ≠ EndpointDesc.TYPE then
      failure
    else
      let (endpoint_address, data) ← readU8 data
      let (attributes, data) ← readU8 data
      let (max_packet_size, data) ← readU16le data
      let (interval, data) ← readU8 data
      if size = EndpointDesc.AUDIO_SIZE then
        let (refresh, data) ← readU8 data
        let (synch_address, _) ← readU8 data
        pure { endpoint_address, attributes, max_packet_size, interval,
               audio := some { refresh, synch_address } }
      else
        pure { endpoint_address, attributes, max_packet_size, interval, audio := none }

/-- Super-speed endpoint companion descriptor (ffs.rs, SsEndpointComp). -/
structure SsEndpointComp where
  max_burst : Nat
  attributes : Nat
  bytes_per_interval : Nat
deriving DecidableEq, Repr

/-- Companion descriptor type (ffs.rs, SsEndpointComp::TYPE). -/
def SsEndpointComp.TYPE : Nat := 0x30

/-- Body bytes written by SsEndpointComp::write. -/
def SsEndpointComp.writeBytes (d : SsEndpointComp) : List Nat :=
  [SsEndpointComp.TYPE, d.max_burst, d.attributes] ++ u16le d.bytes_per_interval

/-- Interface association descriptor (ffs.rs, InterfaceAssocDesc). -/
structure InterfaceAssocDesc where
  first_interface : Nat
  interface_count : Nat
  function_class : Nat
  function_sub_class : Nat
  function_protocol : Nat
  name_idx : Nat
deriving DecidableEq, Repr

/-- Interface association descriptor type (ffs.rs, InterfaceAssocDesc::TYPE). -/
def InterfaceAssocDesc.TYPE : Nat := 0x0b

/-- Body bytes written by InterfaceAssocDesc::write. -/
def InterfaceAssocDesc.writeBytes (d : InterfaceAssocDesc) : List Nat :=
  [InterfaceAssocDesc.TYPE, d.first_interface, d.interface_count, d.function_class,
   d.function_sub_class, d.function_protocol, d.name_idx]

/-- Custom descriptor (ffs.rs, CustomDesc). -/
structure CustomDesc where
  descriptor_type : Nat
  data : List Nat
deriving DecidableEq, Repr

/-- Body bytes written by CustomDesc::write. -/
def CustomDesc.writeBytes (d : CustomDesc) : List Nat :=
  d.descriptor_type :: d.data

/-- A FunctionFS descriptor record (ffs.rs, enum Desc). -/
inductive Desc
  | interface (d : InterfaceDesc)
  | endpoint (d : EndpointDesc)
  | ssEndpointComp (d : SsEndpointComp)
  | interfaceAssoc (d : InterfaceAssocDesc)
  | custom (d : CustomDesc)
deriving DecidableEq, Repr

/-- Body of a descriptor record: the bytes appended after the length placeholder. -/
def Desc.body : Desc → List Nat
  | .interface d => d.writeBytes
  | .endpoint d => d.writeBytes
  | .ssEndpointComp d => d.writeBytes
  | .interfaceAssoc d => d.writeBytes
  | .custom d => d.writeBytes

/-- Serialize one descriptor record (ffs.rs, Desc::to_bytes): a length placeholder byte,
the type-specific body, then the first byte patched to the record's total size. -/
def Desc.to_bytes (d : Desc) : Except FfsError (List Nat) :=
  let data := 0 :: d.body
  match tryIntoU8 data.length with
  | some len => .ok (len :: d.body)
  | none => .error .overflow

/-- Microsoft OS extended-compatibility record (ffs.rs, OsExtCompat). -/
structure OsExtCompatDesc where
  first_interface_number : Nat
  compatible_id : List Nat
  sub_compatible_id : List Nat
deriving DecidableEq, Repr

/-- Bytes written by OsExtCompat::write. -/
def OsExtCompatDesc.writeBytes (d : OsExtCompatDesc) : List Nat :=
  [d.first_interface_number, 1] ++ d.compatible_id ++ d.sub_compatible_id ++
  List.replicate 6 0

/-- Microsoft OS extended-property record (ffs.rs, OsExtProp). -/
structure OsExtPropDesc where
  data_type : Nat
  name : List Nat
  data : List Nat
deriving DecidableEq, Repr

/-- Serialize one extended-property record (ffs.rs, OsExtProp::to_bytes):
a u32 length placeholder patched to the record's total size. -/
def OsExtPropDesc.to_bytes (d : OsExtPropDesc) : Except FfsError (List Nat) := do
  let nameLen ← exceptOfOption FfsError.overflow (tryIntoU16 d.name.length)
  let dataLen ← exceptOfOption FfsError.overflow (tryIntoU32 d.data.length)
  let bytes := u32le 0 ++ u32le d.data_type ++ u16le nameLen ++ d.name ++
    u32le dataLen ++ d.data
  let len ← exceptOfOption FfsError.overflow (tryIntoU32 bytes.length)
  pure (patchBytes bytes 0 (u32le len))

/-- OS descriptor extension (ffs.rs, enum OsDescExt). -/
inductive OsDescExt
  | extCompat (compats : List OsExtCompatDesc)
  | extProp (props : List OsExtPropDesc)
deriving DecidableEq, Repr

/-- The runtime-conditional bcdVersion field (ffs.rs, OsDescExt::write):
0x0100 on kernel 6.4 or later, 0x0001 otherwise. -/
def osDescBcdVersion (kernelGe64 : Bool) : Nat :=
  if kernelGe64 then 0x0100 else 0x0001

/-- Bytes written by OsDescExt::write. -/
def OsDescExt.writeBytes (kernelGe64 : Bool) : OsDescExt → Except FfsError (List Nat)
  | .extCompat compats => do
    let cnt ← exceptOfOption FfsError.overflow (tryIntoU8 compats.length)
    pure (u16le (osDescBcdVersion kernelGe64) ++ u16le 4 ++ [cnt, 0] ++
      (compats.map OsExtCompatDesc.writeBytes).flatten)
  | .extProp props => do
    let cnt ← exceptOfOption FfsError.overflow (tryIntoU16 props.length)
    let propBytes ← props.mapM OsExtPropDesc.to_bytes
    pure (u16le (osDescBcdVersion kernelGe64) ++ u16le 5 ++ u16le cnt ++
      propBytes.flatten)

/-- OS descriptor (ffs.rs, OsDesc). -/
structure OsDesc where
  interface : Nat
  ext : OsDescExt
deriving DecidableEq, Repr

/-- Serialize one OS descriptor (ffs.rs, OsDesc::to_bytes): interface byte,
u32 length placeholder, extension body, then bytes 1..5 patched to the total size. -/
def OsDesc.to_bytes (kernelGe64 : Bool) (d : OsDesc) : Except FfsError (List Nat) := do
  let extBytes ← d.ext.writeBytes kernelGe64
  let data := d.interface :: (u32le 0 ++ extBytes)
  let len ← exceptOfOption FfsError.overflow (tryIntoU32 data.length)
  pure (patchBytes data 1 (u32le len))

/-- FunctionFS descriptor set (ffs.rs, Descs). -/
structure Descs where
  flags : Flags
  eventfd : Option Int
  fs_descrs : List Desc
  hs_descrs : List Desc
  ss_descrs : List Desc
  os_descrs : List OsDesc
deriving Repr

/-- Magic of the v2 descriptor blob (ffs.rs, Descs::MAGIC_V2). -/
def Descs.MAGIC_V2 : Nat := 3

/-- Eventfd bytes written by Descs::to_bytes when an eventfd is attached. -/
def eventfdBytes : Option Int → List Nat
  | some fd => i32le fd
  | none => []

/-- The flag set actually written by Descs::to_bytes: the caller's flags with the
mandatory bits inserted and EVENTFD set iff an eventfd is present. -/
def effectiveFlags (d : Descs) : Flags :=
  { d.flags with has_fs_desc := true, has_hs_desc := true, has_ss_desc := true,
                 has_ms_os_desc := true, eventfd := d.eventfd.isSome }

/-- Serialize a homogeneous list of records, concatenating in order and propagating
the first failure, mirroring the extend loops of Descs::to_bytes. -/
def encodeRecords {α : Type} (f : α → Except FfsError (List Nat)) :
    List α → Except FfsError (List (List Nat))
  | [] => .ok []
  | d :: rest => do
    let r ← f d
    let rs ← encodeRecords f rest
    pure (r :: rs)

/-- Serialize the descriptor set (ffs.rs, Descs::to_bytes): magic, length placeholder,
flags with mandatory bits inserted and EVENTFD set iff an eventfd is present, the
optional eventfd, the four counts, the four descriptor lists, then bytes 4..8
patched to the blob's total length. -/
def Descs.to_bytes (kernelGe64 : Bool) (d : Descs) : Except FfsError (List Nat) := do
  let fsCnt ← exceptOfOption FfsError.overflow (tryIntoU32 d.fs_descrs.length)
  let hsCnt ← exceptOfOption FfsError.overflow (tryIntoU32 d.hs_descrs.length)
  let ssCnt ← exceptOfOption FfsError.overflow (tryIntoU32 d.ss_descrs.length)
  let osCnt ← exceptOfOption FfsError.overflow (tryIntoU32 d.os_descrs.length)
  let fsRecs ← encodeRecords Desc.to_bytes d.fs_descrs
  let hsRecs ← encodeRecords Desc.to_bytes d.hs_descrs
  let ssRecs ← encodeRecords Desc.to_bytes d.ss_descrs
  let osRecs ← encodeRecords (OsDesc.to_bytes kernelGe64) d.os_descrs
  let data := u32le Descs.MAGIC_V2 ++ u32le 0 ++ u32le (effectiveFlags d).bits ++
    eventfdBytes d.eventfd ++ u32le fsCnt ++ u32le hsCnt ++ u32le ssCnt ++ u32le osCnt ++
    fsRecs.flatten ++ hsRecs.flatten ++ ssRecs.flatten ++ osRecs.flatten
  let len ← exceptOfOption FfsError.overflow (tryIntoU32 data.length)
  pure (patchBytes data 4 (u32le len))

/-- A FunctionFS string table (ffs.rs, Strings): language id mapped to the strings of
that language, each string a byte sequence. The hash map is modelled as an
association list whose order stands for the map's iteration order. -/
abbrev StrTable := List (Nat × List (List Nat))

/-- Magic of the strings blob (ffs.rs, Strings::MAGIC). -/
def Strings.MAGIC : Nat := 2

/-- The string count of a table: the length of the first language's string list,
or zero for an empty table (Strings::to_bytes, values().next() map len). -/
def Strings.strCount (tbl : StrTable) : Nat :=
  (tbl.head?.map fun p => p.2.length).getD 0

/-- Body bytes of the strings blob: per language the u16 LE language id followed by
each string NUL-terminated in index order. -/
def Strings.body (tbl : StrTable) : List Nat :=
  tbl.flatMap fun p => u16le p.1 ++ p.2.flatMap fun s => s ++ [0]

/-- Serialize the string table (ffs.rs, Strings::to_bytes): fails when two languages
carry different string counts; otherwise magic, length placeholder, string count,
language count, then per language the u16 LE language id followed by each string
NUL-terminated, and finally bytes 4..8 patched to the blob's total length. -/
def Strings.to_bytes (tbl : StrTable) : Except FfsError (List Nat) :=
  if tbl.all fun p => p.2.length = Strings.strCount tbl then do
    let sc ← exceptOfOption FfsError.overflow (tryIntoU32 (Strings.strCount tbl))
    let lc ← exceptOfOption FfsError.overflow (tryIntoU32 tbl.length)
    let data := u32le Strings.MAGIC ++ u32le 0 ++ u32le sc ++ u32le lc ++ Strings.body tbl
    let len ← exceptOfOption FfsError.overflow (tryIntoU32 data.length)
    pure (patchBytes data 4 (u32le len))
  else .error .stringsDifferAcrossLanguages

/-! Builder-side data model (mod.rs): interfaces, endpoints, associations. -/

/-- USB class triple (crate root, struct Class; the field named class in Rust is
classCode here since class is a Lean keyword). -/
structure UsbClass where
  classCode : Nat
  sub_class : Nat
  protocol : Nat
deriving DecidableEq, Repr

/-- A language map (HashMap of Language to String): language id mapped to the
string's bytes, modelled as an association list with distinct keys. -/
abbrev LangMap := List (Nat × List Nat)

/-- Interface association (mod.rs, Association). Equality is Arc-pointer identity
plus field equality; addr models the address of the Arc allocation, distinct for
each Association::new call. -/
structure Association where
  addr : Nat
  function_class : UsbClass
  name : LangMap
deriving DecidableEq, Repr

/-- Transfer direction (mod.rs, Direction). -/
inductive Direction
  | deviceToHost
  | hostToDevice
deriving DecidableEq, Repr

/-- Endpoint synchronization type (mod.rs, SyncType). -/
inductive SyncType
  | noSync
  | async
  | adaptive
  | sync
deriving DecidableEq, Repr

/-- Attribute bits of a synchronization type (SyncType::to_attributes). -/
def SyncType.to_attributes : SyncType → Nat
  | .noSync => 0b00 <<< 2
  | .async => 0b01 <<< 2
  | .adaptive => 0b10 <<< 2
  | .sync => 0b11 <<< 2

/-- Endpoint usage type (mod.rs, UsageType). -/
inductive UsageType
  | data
  | feedback
  | implicitFeedback
deriving DecidableEq, Repr

/-- Attribute bits of a usage type (UsageType::to_attributes). -/
def UsageType.to_attributes : UsageType → Nat
  | .data => 0b00 <<< 4
  | .feedback => 0b01 <<< 4
  | .implicitFeedback => 0b10 <<< 4

/-- Endpoint transfer type (mod.rs, TransferType). -/
inductive TransferType
  | control
  | isochronous (sync : SyncType) (usage : UsageType)
  | bulk
  | interrupt
deriving DecidableEq, Repr

/-- Attribute byte of a transfer type (TransferType::to_attributes). -/
def TransferType.to_attributes : TransferType → Nat
  | .control => 0b00
  | .isochronous s u => 0b01 ||| s.to_attributes ||| u.to_attributes
  | .bulk => 0b10
  | .interrupt => 0b11

/-- Audio extension of a builder endpoint (mod.rs, EndpointAudio). -/
structure EndpointAudio where
  refresh : Nat
  synch_address : Nat
deriving DecidableEq, Repr

/-- A builder endpoint (mod.rs, Endpoint together with its EndpointDirection). -/
structure BEndpoint where
  direction : Direction
  queue_len : Nat
  transfer : TransferType
  max_packet_size_hs : Nat
  max_packet_size_ss : Nat
  max_burst_ss : Nat
  bytes_per_interval_ss : Nat
  interval : Nat
  audio : Option EndpointAudio
deriving DecidableEq, Repr

/-- Builder-side Microsoft extended compatibility descriptor (mod.rs, OsExtCompat). -/
structure BOsExtCompat where
  compatible_id : List Nat
  sub_compatible_id : List Nat
deriving DecidableEq, Repr

/-- Microsoft registry value (mod.rs, OsRegValue); strings carry their UTF-8 bytes. -/
inductive OsRegValue
  | sz (s : List Nat)
  | expandSz (s : List Nat)
  | binary (b : List Nat)
  | dwordLe (v : Nat)
  | dwordBe (v : Nat)
  | link (s : List Nat)
  | multiSz (ss : List (List Nat))
deriving DecidableEq, Repr

/-- Registry value type code (OsRegValue::as_type). -/
def OsRegValue.as_type : OsRegValue → Nat
  | .sz _ => 1
  | .expandSz _ => 2
  | .binary _ => 3
  | .dwordLe _ => 4
  | .dwordBe _ => 5
  | .link _ => 6
  | .multiSz _ => 7

/-- Big-endian encoding of a 32-bit value, mirroring to_be_bytes. -/
def u32be (n : Nat) : List Nat :=
  [n / 16777216 % 256, n / 65536 % 256, n / 256 % 256, n % 256]

/-- Registry value bytes (OsRegValue::as_bytes). -/
def OsRegValue.as_bytes : OsRegValue → List Nat
  | .sz s => s ++ [0]
  | .expandSz s => s ++ [0]
  | .binary b => b
  | .dwordLe v => u32le v
  | .dwordBe v => u32be v
  | .link s => s ++ [0]
  | .multiSz ss => ss.flatMap fun s => s ++ [0]

/-- Builder-side Microsoft extended property (mod.rs, OsExtProp). -/
structure BOsExtProp where
  name : List Nat
  value : OsRegValue
deriving DecidableEq, Repr

/-- Conversion to the wire-level record (OsExtProp::as_os_ext_prop):
NUL is appended to the name. -/
def BOsExtProp.as_os_ext_prop (p : BOsExtProp) : OsExtPropDesc :=
  { name := p.name ++ [0], data_type := p.value.as_type, data := p.value.as_bytes }

/-- A builder interface (mod.rs, Interface). -/
structure BInterface where
  interface_class : UsbClass
  name : LangMap
  endpoints : List BEndpoint
  association : Option Association
  os_ext_compat : List BOsExtCompat
  os_ext_props : List BOsExtProp
  custom_descs : List CustomDesc
deriving DecidableEq, Repr

/-- The parts of CustomBuilder read by ffs_descs (mod.rs, CustomBuilder); the
FunctionFS mount options are filesystem configuration not touched by descriptor
building and are omitted. -/
structure CustomBuilder where
  interfaces : List BInterface
  all_ctrl_recipient : Bool
  config0_setup : Bool
deriving Repr

/-- Errors raised while building FunctionFS descriptors (the io::Error values
created inside CustomBuilder::ffs_descs, plus codec errors converted from
ffs::Error). -/
inductive BuildErr
  | tooManyInterfaces
  | tooManyEndpoints
  | tooManyStrings
  | assocNotAdjacent
  | codec (e : FfsError)
deriving DecidableEq, Repr

/-- The add_strings closure of CustomBuilder::ffs_descs: every language already in
the table or present in the new map receives one further string (the new map's
entry for it, or an empty string), a language first seen now being padded with
empty strings up to the current count first; returns the u8 index of the added
string slot, failing when it overflows u8. Existing languages keep their order and
new languages are appended, standing for the hash map's arbitrary order. -/
def addStrings (strs : LangMap) (tbl : StrTable) : Except BuildErr (Nat × StrTable) :=
  let str_cnt := Strings.strCount tbl
  let newLangs := (strs.map Prod.fst).filter fun l => ¬ (tbl.map Prod.fst).contains l
  let tbl' := (tbl.map fun p => (p.1, p.2 ++ [(strs.lookup p.1).getD []])) ++
    newLangs.map fun l => (l, List.replicate str_cnt [] ++ [(strs.lookup l).getD []])
  match tryIntoU8 (str_cnt + 1) with
  | some idx => .ok (idx, tbl')
  | none => .error .tooManyStrings

/-- Intermediate state of the ffs_descs interface loop. -/
structure BuildState where
  strings : StrTable
  fs : List Desc
  hs : List Desc
  ss : List Desc
  os : List OsDesc
  endpoint_num : Nat
  assocs : List (Association × InterfaceAssocDesc)
deriving Repr

/-- Look up the association descriptor entry of an association key
(the assocs hash map access of ffs_descs). -/
def lookupAssoc (assocs : List (Association × InterfaceAssocDesc)) (a : Association) :
    Option InterfaceAssocDesc :=
  match assocs.find? fun p => p.1 == a with
  | some p => some p.2
  | none => none

/-- Replace the association descriptor entry of an association key in place. -/
def updateAssoc (assocs : List (Association × InterfaceAssocDesc)) (a : Association)
    (iad : InterfaceAssocDesc) : List (Association × InterfaceAssocDesc) :=
  assocs.map fun p => if p.1 == a then (p.1, iad) else p

/-- The endpoint loop of ffs_descs: number each endpoint, fail once the endpoint
number reaches the direction bit, and push the per-speed endpoint descriptors,
with a companion descriptor after each super-speed endpoint descriptor. -/
def addEndpoints (st : BuildState) : List BEndpoint → Except BuildErr BuildState
  | [] => .ok st
  | ep :: rest =>
    let num := st.endpoint_num + 1
    if num ≥ DIR_IN then .error .tooManyEndpoints
    else
      let ep_desc : EndpointDesc :=
        { endpoint_address :=
            match ep.direction with
            | .deviceToHost => num ||| DIR_IN
            | .hostToDevice => num ||| DIR_OUT,
          attributes := ep.transfer.to_attributes,
          max_packet_size := 0,
          interval := ep.interval,
          audio := ep.audio.map fun a =>
            { refresh := a.refresh, synch_address := a.synch_address } }
      let ss_comp : SsEndpointComp :=
        { max_burst := ep.max_burst_ss, attributes := 0,
          bytes_per_interval := ep.bytes_per_interval_ss }
      addEndpoints
        { st with
          endpoint_num := num,
          fs := st.fs ++ [.endpoint ep_desc],
          hs := st.hs ++
            [.endpoint { ep_desc with max_packet_size := ep.max_packet_size_hs }],
          ss := st.ss ++
            [.endpoint { ep_desc with max_packet_size := ep.max_packet_size_ss },
             .ssEndpointComp ss_comp] }
        rest

/-- The insertion arm of the association step of ffs_descs: the entry is created
with first_interface set to the current interface number and the name index from
add_strings, then the adjacency check exactly as written in the source
(iad.first_interface + interface_number != interface_number) runs and the member
count is bumped. -/
def assocInsert (assoc : Association) (interface_number : Nat) (name_idx : Nat)
    (strings : StrTable) (st : BuildState) : Except BuildErr BuildState :=
  let iad : InterfaceAssocDesc :=
    { first_interface := interface_number, interface_count := 0,
      function_class := assoc.function_class.classCode,
      function_sub_class := assoc.function_class.sub_class,
      function_protocol := assoc.function_class.protocol,
      name_idx }
  if iad.first_interface + interface_number ≠ interface_number then
    .error .assocNotAdjacent
  else
    let iad' : InterfaceAssocDesc :=
      { iad with interface_count := iad.interface_count + 1 }
    .ok { st with strings := strings, assocs := st.assocs ++ [(assoc, iad')] }

/-- The association step of ffs_descs when the association key is already present:
the adjacency check exactly as written in the source, then the member-count bump. -/
def assocBump (assoc : Association) (interface_number : Nat)
    (iad : InterfaceAssocDesc) (st : BuildState) : Except BuildErr BuildState :=
  if iad.first_interface + interface_number ≠ interface_number then
    .error .assocNotAdjacent
  else
    let iad' : InterfaceAssocDesc :=
      { iad with interface_count := iad.interface_count + 1 }
    .ok { st with assocs := updateAssoc st.assocs assoc iad' }

/-- The association step of ffs_descs for one interface: fetch or insert the
association's descriptor entry (computing its name index on insertion), run the
adjacency check, and bump the member count. -/
def assocStep (assoc : Association) (interface_number : Nat) (st : BuildState) :
    Except BuildErr BuildState :=
  match lookupAssoc st.assocs assoc with
  | some iad => assocBump assoc interface_number iad st
  | none => do
    let (name_idx, strings) ← addStrings assoc.name st.strings
    assocInsert assoc interface_number name_idx strings st

/-- The OS-descriptor steps at the end of the ffs_descs loop body: push an
extended-compatibility OS descriptor when the interface has any, then an
extended-property OS descriptor when the interface has any. -/
def osSteps (interface_number : Nat) (intf : BInterface) (st : BuildState) : BuildState :=
  let st :=
    if intf.os_ext_compat ≠ [] then
      { st with os := st.os ++
          [{ interface := interface_number,
             ext := OsDescExt.extCompat (intf.os_ext_compat.map fun oe =>
               { first_interface_number := interface_number,
                 compatible_id := oe.compatible_id,
                 sub_compatible_id := oe.sub_compatible_id }) }] }
    else st
  let st :=
    if intf.os_ext_props ≠ [] then
      { st with os := st.os ++
          [{ interface := interface_number,
             ext := OsDescExt.extProp
               (intf.os_ext_props.map BOsExtProp.as_os_ext_prop) }] }
    else st
  st

/-- The body of the ffs_descs loop for one interface. -/
def processInterface (interface_number : Nat) (intf : BInterface) (st : BuildState) :
    Except BuildErr BuildState := do
  if interface_number > 255 then .error .tooManyInterfaces
  else
    match tryIntoU8 intf.endpoints.length with
    | none => .error .tooManyEndpoints
    | some num_endpoints => do
      let (name_idx, strings) ← addStrings intf.name st.strings
      let if_desc : InterfaceDesc :=
        { interface_number, alternate_setting := 0, num_endpoints,
          interface_class := intf.interface_class.classCode,
          interface_sub_class := intf.interface_class.sub_class,
          interface_protocol := intf.interface_class.protocol,
          name_idx }
      let customs := intf.custom_descs.map Desc.custom
      let st := { st with
                  strings := strings,
                  fs := st.fs ++ [Desc.interface if_desc] ++ customs,
                  hs := st.hs ++ [Desc.interface if_desc] ++ customs,
                  ss := st.ss ++ [Desc.interface if_desc] ++ customs }
      let st ← addEndpoints st intf.endpoints
      let st ←
        match intf.association with
        | some assoc => assocStep assoc interface_number st
        | none => .ok st
      .ok (osSteps interface_number intf st)

/-- The enumerated interface loop of ffs_descs. -/
def processInterfaces (interface_number : Nat) (st : BuildState) :
    List BInterface → Except BuildErr BuildState
  | [] => .ok st
  | intf :: rest => do
    let st ← processInterface interface_number intf st
    processInterfaces (interface_number + 1) st rest

/-- Build FunctionFS descriptors and strings (mod.rs, CustomBuilder::ffs_descs). -/
def CustomBuilder.ffs_descs (b : CustomBuilder) : Except BuildErr (Descs × StrTable) := do
  let st ← processInterfaces 0
    { strings := [], fs := [], hs := [], ss := [], os := [], endpoint_num := 0,
      assocs := [] } b.interfaces
  let iads := st.assocs.map fun p => Desc.interfaceAssoc p.2
  let flags : Flags :=
    { all_ctrl_recip := b.all_ctrl_recipient, config0_setup := b.config0_setup }
  .ok ({ flags, eventfd := none, fs_descrs := st.fs ++ iads, hs_descrs := st.hs ++ iads,
         ss_descrs := st.ss ++ iads, os_descrs := st.os }, st.strings)

/-- Descriptor and string blobs for writing into ep0
(mod.rs, CustomBuilder::ffs_descriptors_and_strings). -/
def CustomBuilder.ffs_descriptors_and_strings (kernelGe64 : Bool) (b : CustomBuilder) :
    Except BuildErr (List Nat × List Nat) := do
  let (descs, strs) ← b.ffs_descs
  match descs.to_bytes kernelGe64, Strings.to_bytes strs with
  | .ok db, .ok sb => .ok (db, sb)
  | .error e, _ => .error (.codec e)
  | _, .error e => .error (.codec e)

/-! I/O errors surfaced by the reactor, the endpoint handles and the control
endpoint (std::io::Error values created in aio/mod.rs and mod.rs, identified by
their kind and message). -/

/-- I/O errors of the reactor and endpoint layer. -/
inductive IoError
  /-- ErrorKind::BrokenPipe, message USB gadget was removed. -/
  | gadgetRemoved
  /-- ErrorKind::WouldBlock, message no AIO queue space available. -/
  | noQueueSpace
  /-- ErrorKind::WouldBlock, message AIO request not accepted. -/
  | requestNotAccepted
  /-- ErrorKind::InvalidData, message invalid event size. -/
  | invalidEventSize
  /-- ErrorKind::InvalidData from parsing a malformed event record. -/
  | malformedEvent
  /-- An OS error code propagated from a syscall or a completed operation. -/
  | osError (errno : Nat)
deriving DecidableEq, Repr

/-! AIO reactor (aio/mod.rs, Driver). The driver handle owns the counters
next_id, space and queue_length. The ids of operations submitted to the kernel
and not yet completed (owned by the worker thread and the kernel) are modelled
by the inflight list, and the worker-to-handle completion channel by the done
list, so that the handle, worker and kernel state evolve by explicit steps. -/

/-- A completed AIO operation (aio/mod.rs, CompletedOp); res is negative for a
failed operation, as delivered by the kernel. -/
structure CompletedOp where
  id : Nat
  res : Int
  res2 : Int
deriving DecidableEq, Repr

/-- Retrieve the result of a completed operation (CompletedOp::result): an error
with the negated res as OS error code when res is negative. -/
def CompletedOp.result (c : CompletedOp) : Except IoError Int :=
  if 0 ≤ c.res then .ok c.res else .error (.osError (-c.res).toNat)

/-- State of an AIO driver together with its kernel context and completion
channel (aio/mod.rs, Driver). -/
structure DriverState where
  next_id : Nat
  space : Nat
  queue_length : Nat
  inflight : List Nat
  done : List CompletedOp
deriving DecidableEq, Repr

/-- A fresh driver (Driver::new): empty queue, space equal to the queue length. -/
def Driver.new (queue_length : Nat) : DriverState :=
  { next_id := 0, space := queue_length, queue_length, inflight := [], done := [] }

/-- Whether the queue of AIO operations is full (Driver::is_full). -/
def DriverState.is_full (st : DriverState) : Bool :=
  st.space == 0

/-- Whether the queue of AIO operations is empty (Driver::is_empty). -/
def DriverState.is_empty (st : DriverState) : Bool :=
  st.space == st.queue_length

/-- Observable actions of Driver::submit, in program order: the Insert command
sent to the worker, the io_submit syscall, the Remove command sent on rejection,
and the eventfd wake-up write. -/
inductive DriverAction
  | sendInsert (id : Nat)
  | kernelSubmit (id : Nat)
  | sendRemove (id : Nat)
  | eventfdWrite
deriving DecidableEq, Repr

/-- Outcome of the io_submit syscall for a single control block. -/
inductive KernelSubmitOutcome
  /-- Ok(1): the kernel accepted the submission. -/
  | accepted
  /-- Ok(n) with n different from 1: the request was not accepted. -/
  | notAccepted
  /-- Err: the syscall failed with an OS error. -/
  | failed (errno : Nat)
deriving DecidableEq, Repr

/-- Result of Driver::submit: the returned value, the driver state afterwards and
the trace of observable actions in program order. -/
structure SubmitOutcome where
  result : Except IoError Nat
  state : DriverState
  trace : List DriverAction
deriving Repr

/-- Submit an AIO operation (aio/mod.rs, Driver::submit): fail immediately when
full; otherwise allocate the next id (wrapping at 64 bits), send Insert to the
worker, then issue the kernel submission; on acceptance decrement space, wake the
worker and return the handle; otherwise send Remove, wake the worker and
propagate the error with space unchanged. -/
def Driver.submit (st : DriverState) (k : KernelSubmitOutcome) : SubmitOutcome :=
  if st.is_full then
    { result := .error .noQueueSpace, state := st, trace := [] }
  else
    let id := st.next_id
    let st := { st with next_id := (st.next_id + 1) % 2 ^ 64 }
    match k with
    | .accepted =>
      { result := .ok id,
        state := { st with space := st.space - 1, inflight := st.inflight ++ [id] },
        trace := [.sendInsert id, .kernelSubmit id, .eventfdWrite] }
    | .notAccepted =>
      { result := .error .requestNotAccepted, state := st,
        trace := [.sendInsert id, .kernelSubmit id, .sendRemove id, .eventfdWrite] }
    | .failed errno =>
      { result := .error (.osError errno), state := st,
        trace := [.sendInsert id, .kernelSubmit id, .sendRemove id, .eventfdWrite] }

/-- The kernel finishes one in-flight operation and the worker forwards it into
the completion channel (the event-delivery loop of Driver::thread). -/
def Driver.kernelComplete (st : DriverState) (c : CompletedOp) : DriverState :=
  { st with inflight := st.inflight.erase c.id, done := st.done ++ [c] }

/-- Blocking completion retrieval (Driver::completed): None immediately when the
queue is empty, otherwise a blocking receive on the completion channel and an
increment of space. The outer Option is none when the call would block because no
completion has been delivered yet. -/
def Driver.completed (st : DriverState) : Option (Option CompletedOp × DriverState) :=
  if st.is_empty then
    some (none, st)
  else
    match st.done with
    | [] => none
    | c :: rest => some (some c, { st with done := rest, space := st.space + 1 })

/-- Bounded completion retrieval (Driver::completed_timeout): None immediately
when the queue is empty; otherwise a receive with timeout, expired telling
whether the timeout elapsed before a completion was delivered. -/
def Driver.completed_timeout (st : DriverState) (expired : Bool) :
    Option CompletedOp × DriverState :=
  if st.is_empty then
    (none, st)
  else
    match st.done with
    | [] => (none, st)
    | c :: rest =>
      if expired then (none, st)
      else (some c, { st with done := rest, space := st.space + 1 })

/-- Non-blocking completion retrieval (Driver::try_completed): a try_recv on the
completion channel, incrementing space when a completion was present. -/
def Driver.try_completed (st : DriverState) : Option CompletedOp × DriverState :=
  match st.done with
  | [] => (none, st)
  | c :: rest => (some c, { st with done := rest, space := st.space + 1 })

/-- Suspending completion retrieval (Driver::wait_completed): None immediately
when the queue is empty, otherwise try_completed in a loop suspending on the
notifier; the outer Option is none when the task would suspend. -/
def Driver.wait_completed (st : DriverState) : Option (Option CompletedOp × DriverState) :=
  if st.is_empty then
    some (none, st)
  else
    match st.done with
    | [] => none
    | c :: rest => some (some c, { st with done := rest, space := st.space + 1 })

/-- One transition of the reactor: a submission attempt with any kernel outcome,
a kernel completion of an in-flight operation, or any completion-retrieval call. -/
inductive DriverStep : DriverState → DriverState → Prop
  | submit (st : DriverState) (k : KernelSubmitOutcome) :
      DriverStep st (Driver.submit st k).state
  | kernelComplete (st : DriverState) (c : CompletedOp) :
      c.id ∈ st.inflight → DriverStep st (Driver.kernelComplete st c)
  | completed (st : DriverState) (r : Option CompletedOp) (st' : DriverState) :
      Driver.completed st = some (r, st') → DriverStep st st'
  | completedTimeout (st : DriverState) (expired : Bool) :
      DriverStep st (Driver.completed_timeout st expired).2
  | tryCompleted (st : DriverState) :
      DriverStep st (Driver.try_completed st).2
  | waitCompleted (st : DriverState) (r : Option CompletedOp) (st' : DriverState) :
      Driver.wait_completed st = some (r, st') → DriverStep st st'

/-- States reachable from an initial driver state by reactor transitions. -/
inductive DriverReachable (init : DriverState) : DriverState → Prop
  | refl : DriverReachable init init
  | step {st st' : DriverState} :
      DriverReachable init st → DriverStep st st' → DriverReachable init st'

/-! Worker thread of the reactor (aio/mod.rs, Driver::thread): command
processing over the tracked-operation table and in-order event delivery. -/

/-- A command sent from the driver handle to the worker (aio/mod.rs, enum Cmd);
for cancellation the kernelOk flag tells whether the io_cancel syscall succeeds. -/
inductive WorkerCmd
  | insert (id : Nat)
  | remove (id : Nat)
  | cancel (id : Nat) (kernelOk : Bool)
  | cancelAll (kernelOk : Nat → Bool)

/-- The command-processing loop of Driver::thread over the table of tracked
operation ids: Insert panics (modelled as none) on a duplicate id, Remove panics
on an unknown id, Cancel delivers the cancelled operation when the kernel cancel
succeeds, CancelAll retains exactly the operations whose kernel cancel failed.
Returns the tracked table and the ids delivered into the completion channel. -/
def runCmds (cmds : List WorkerCmd) (active : List Nat) (delivered : List Nat) :
    Option (List Nat × List Nat) :=
  match cmds with
  | [] => some (active, delivered)
  | .insert id :: rest =>
    if id ∈ active then none
    else runCmds rest (active ++ [id]) delivered
  | .remove id :: rest =>
    if id ∈ active then runCmds rest (active.erase id) delivered else none
  | .cancel id kernelOk :: rest =>
    if kernelOk ∧ id ∈ active then
      runCmds rest (active.erase id) (delivered ++ [id])
    else
      runCmds rest active delivered
  | .cancelAll kernelOk :: rest =>
    runCmds rest (active.filter fun id => !kernelOk id)
      (delivered ++ active.filter fun id => kernelOk id)

/-- The event-delivery loop of Driver::thread: forward queued kernel events that
match a tracked operation, stopping at the first unmatched event. Events are
identified by their id (the data field). Returns the remaining tracked table,
the unprocessed queue and the ids delivered. -/
def deliverEvents (active : List Nat) (queue : List Nat) (delivered : List Nat) :
    List Nat × List Nat × List Nat :=
  match queue with
  | [] => (active, [], delivered)
  | id :: rest =>
    if id ∈ active then deliverEvents (active.erase id) rest (delivered ++ [id])
    else (active, id :: rest, delivered)

/-! Control-transfer state machine (mod.rs, Custom and ffs.rs, Event). -/

/-- A USB control request (ffs.rs, CtrlReq). -/
structure CtrlReq where
  request_type : Nat
  request : Nat
  value : Nat
  index : Nat
  length : Nat
deriving DecidableEq, Repr

/-- Parse a control request from the event payload (CtrlReq::parse). -/
def CtrlReq.parse (buf : List Nat) : Option CtrlReq := do
  let (request_type, buf) ← readU8 buf
  let (request, buf) ← readU8 buf
  let (value, buf) ← readU16le buf
  let (index, buf) ← readU16le buf
  let (length, _) ← readU16le buf
  pure { request_type, request, value, index, length }

/-- A raw FunctionFS event (ffs.rs, Event): 8 payload bytes and a type tag. -/
structure FfsEvent where
  data : List Nat
  event_type : Nat
deriving DecidableEq, Repr

/-- Parse a FunctionFS event record (Event::parse): 8 payload bytes, the type
byte, then 3 padding bytes. -/
def FfsEvent.parse (buf : List Nat) : Option FfsEvent :=
  match buf with
  | d0 :: d1 :: d2 :: d3 :: d4 :: d5 :: d6 :: d7 :: ty :: _p0 :: _p1 :: _p2 :: _ =>
    some { data := [d0, d1, d2, d3, d4, d5, d6, d7], event_type := ty }
  | _ => none

/-- A decoded USB event (mod.rs, enum Event); the setup variants carry the parsed
control request of the response object handed to the caller. -/
inductive UsbEvent
  | bind
  | unbind
  | enable
  | disable
  | suspend
  | resume
  | setupHostToDevice (req : CtrlReq)
  | setupDeviceToHost (req : CtrlReq)
  | unknown (tag : Nat)
deriving DecidableEq, Repr

/-- Control-endpoint state of a Custom function (mod.rs, Custom::setup_event). -/
structure CustomSt where
  setup_event : Option Direction
deriving DecidableEq, Repr

/-- Decode a raw event (mod.rs, Event::from_ffs): a Setup event parses the
control request (none models the unwrap panic on malformed payload) and records
the pending transfer direction from bit 0x80 of request_type. -/
def eventFromFfs (raw : FfsEvent) (st : CustomSt) : Option (UsbEvent × CustomSt) :=
  match raw.event_type with
  | 0 => some (.bind, st)
  | 1 => some (.unbind, st)
  | 2 => some (.enable, st)
  | 3 => some (.disable, st)
  | 5 => some (.suspend, st)
  | 6 => some (.resume, st)
  | 4 => do
    let req ← CtrlReq.parse raw.data
    if req.request_type &&& DIR_IN ≠ 0 then
      some (.setupDeviceToHost req, { setup_event := some .deviceToHost })
    else
      some (.setupHostToDevice req, { setup_event := some .hostToDevice })
  | other => some (.unknown other, st)

/-- An observable I/O action on the control endpoint file. -/
inductive Ep0Action
  /-- A read of an n-byte buffer. -/
  | readOp (n : Nat)
  /-- A write of an n-byte buffer. -/
  | writeOp (n : Nat)
  /-- A poll waiting for readability. -/
  | pollOp
deriving DecidableEq, Repr

/-- Environment of the control endpoint: whether the weak reference to the ep0
file still upgrades, and the event records the kernel delivers on successive
event-sized reads. -/
structure Ep0World where
  alive : Bool
  events : List (List Nat)
deriving Repr

/-- Drain a forgotten previous event (mod.rs, Custom::clear_prev_event): a 1-byte
read for a pending device-to-host transfer, a 1-byte write for a pending
host-to-device transfer, nothing when no transfer is pending; the pending state
is taken in every case. -/
def Custom.clear_prev_event (st : CustomSt) (w : Ep0World) :
    Except IoError CustomSt × List Ep0Action :=
  if !w.alive then
    (.error .gadgetRemoved, [])
  else
    match st.setup_event with
    | some .deviceToHost => (.ok { setup_event := none }, [.readOp 1])
    | some .hostToDevice => (.ok { setup_event := none }, [.writeOp 1])
    | none => (.ok { setup_event := none }, [])

/-- Blocking event read (mod.rs, Custom::read_event): read a 12-byte record,
fail on a short read, parse it and decode it. The outer Option is none when the
read would block forever because no record ever arrives. -/
def Custom.read_event (st : CustomSt) (w : Ep0World) :
    Option (Except IoError (UsbEvent × CustomSt) × Ep0World × List Ep0Action) :=
  if !w.alive then
    some (.error .gadgetRemoved, w, [])
  else
    match w.events with
    | [] => none
    | buf :: rest =>
      let w' : Ep0World := { w with events := rest }
      if buf.length ≠ 12 then
        some (.error .invalidEventSize, w', [.readOp 12])
      else
        match FfsEvent.parse buf with
        | none => some (.error .malformedEvent, w', [.readOp 12])
        | some raw =>
          match eventFromFfs raw st with
          | none => some (.error .malformedEvent, w', [.readOp 12])
          | some (ev, st') => some (.ok (ev, st'), w', [.readOp 12])

/-- Blocking event retrieval (mod.rs, Custom::event): clear_prev_event followed
by read_event. -/
def Custom.event (st : CustomSt) (w : Ep0World) :
    Option (Except IoError (UsbEvent × CustomSt) × Ep0World × List Ep0Action) :=
  match Custom.clear_prev_event st w with
  | (.error e, tr) => some (.error e, w, tr)
  | (.ok st', tr) =>
    match Custom.read_event st' w with
    | none => none
    | some (res, w', tr') => some (res, w', tr ++ tr')

/-- Bounded event retrieval (mod.rs, Custom::event_timeout): wait_event_sync with
the timeout (a poll on ep0), then read_event when an event is ready, None when
the timeout elapses first. -/
def Custom.event_timeout (st : CustomSt) (w : Ep0World) :
    Option (Except IoError (Option (UsbEvent × CustomSt)) × Ep0World × List Ep0Action) :=
  if !w.alive then
    some (.error .gadgetRemoved, w, [])
  else if w.events ≠ [] then
    match Custom.read_event st w with
    | none => none
    | some (.ok r, w', tr) => some (.ok (some r), w', [.pollOp] ++ tr)
    | some (.error e, w', tr) => some (.error e, w', [.pollOp] ++ tr)
  else
    some (.ok none, w, [.pollOp])

/-- Non-blocking event retrieval (mod.rs, Custom::try_event): clear_prev_event,
then has_event (a zero-timeout poll), then read_event when an event is ready. -/
def Custom.try_event (st : CustomSt) (w : Ep0World) :
    Option (Except IoError (Option (UsbEvent × CustomSt)) × Ep0World × List Ep0Action) :=
  match Custom.clear_prev_event st w with
  | (.error e, tr) => some (.error e, w, tr)
  | (.ok st', tr) =>
    if w.alive ∧ w.events ≠ [] then
      match Custom.read_event st' w with
      | none => none
      | some (.ok r, w', tr') => some (.ok (some r), w', tr ++ [.pollOp] ++ tr')
      | some (.error e, w', tr') => some (.error e, w', tr ++ [.pollOp] ++ tr')
    else
      some (.ok none, w, tr ++ [.pollOp])

/-- Access the ep0 file (mod.rs, Custom::ep0): upgrading the weak reference
fails with the gadget-removed error after the files were closed. -/
def Custom.ep0 (w : Ep0World) : Except IoError Unit :=
  if w.alive then .ok () else .error .gadgetRemoved

/-- Real interface address query (mod.rs, Custom::real_address): the ioctl on the
ep0 file, reached only while the file is alive. -/
def Custom.real_address (w : Ep0World) (kernelAnswer : Nat) : Except IoError Nat :=
  match Custom.ep0 w with
  | .error e => .error e
  | .ok () => .ok kernelAnswer

/-- File descriptor of ep0 (mod.rs, Custom::fd). -/
def Custom.fd (w : Ep0World) (rawFd : Nat) : Except IoError Nat :=
  match Custom.ep0 w with
  | .error e => .error e
  | .ok () => .ok rawFd

/-! Endpoint handles (mod.rs, EndpointIo, EndpointControl, EndpointSender and
EndpointReceiver). -/

/-- An endpoint's I/O state: whether the weak reference to its device file still
upgrades, and its AIO driver. -/
structure EndpointIoSt where
  alive : Bool
  aio : DriverState
deriving Repr

/-- Access the endpoint device file (mod.rs, EndpointIo::file): upgrading the
weak reference fails with the gadget-removed error after the files were closed. -/
def EndpointIo.file (io : EndpointIoSt) : Except IoError Unit :=
  if io.alive then .ok () else .error .gadgetRemoved

/-- Drain every already-delivered completion, propagating the first failed
operation's error (the try_completed loop of EndpointSender::try_ready);
the list argument is the driver's completion channel content. -/
def drainDoneAux (st : DriverState) : List CompletedOp → Except IoError DriverState
  | [] => .ok st
  | c :: rest =>
    match c.result with
    | .error e => .error e
    | .ok _ => drainDoneAux { st with done := rest, space := st.space + 1 } rest

/-- Drain every already-delivered completion of a driver. -/
def drainDone (st : DriverState) : Except IoError DriverState :=
  drainDoneAux st st.done

/-- Check for send space (mod.rs, EndpointSender::try_ready): drain all available
completions and surface their errors. -/
def EndpointSender.try_ready (io : EndpointIoSt) : Except IoError EndpointIoSt :=
  match drainDone io.aio with
  | .error e => .error e
  | .ok aio => .ok { io with aio }

/-- Enqueue data for sending without waiting (mod.rs, EndpointSender::try_send):
try_ready, then the device file, then an AIO write submission. -/
def EndpointSender.try_send (io : EndpointIoSt) (k : KernelSubmitOutcome) :
    Except IoError EndpointIoSt :=
  match EndpointSender.try_ready io with
  | .error e => .error e
  | .ok io =>
    match EndpointIo.file io with
    | .error e => .error e
    | .ok () =>
      let out := Driver.submit io.aio k
      match out.result with
      | .error e => .error e
      | .ok _ => .ok { io with aio := out.state }

/-- Wait for send space (mod.rs, EndpointSender::ready): retrieve completions
while the queue is full, surfacing their errors; the outer Option is none when
the receive would block forever; the list argument is the driver's completion
channel content. -/
def Driver.readyLoopAux (st : DriverState) :
    List CompletedOp → Option (Except IoError DriverState)
  | [] => if st.is_full then none else some (.ok st)
  | c :: rest =>
    if st.is_full then
      match c.result with
      | .error e => some (.error e)
      | .ok _ => Driver.readyLoopAux { st with done := rest, space := st.space + 1 } rest
    else
      some (.ok st)

/-- Wait for send space on a driver (the completed loop of EndpointSender::ready). -/
def Driver.readyLoop (st : DriverState) : Option (Except IoError DriverState) :=
  Driver.readyLoopAux st st.done

/-- Enqueue data for sending, blocking until space exists
(mod.rs, EndpointSender::send): ready followed by try_send. -/
def EndpointSender.send (io : EndpointIoSt) (k : KernelSubmitOutcome) :
    Option (Except IoError EndpointIoSt) :=
  match Driver.readyLoop io.aio with
  | none => none
  | some (.error e) => some (.error e)
  | some (.ok aio) => some (EndpointSender.try_send { io with aio } k)

/-- Wait for all enqueued data to be sent (mod.rs, EndpointSender::flush):
retrieve completions until the queue is empty, surfacing their errors; the outer
Option is none when the receive would block forever; the list argument is the
driver's completion channel content. -/
def Driver.flushLoopAux (st : DriverState) :
    List CompletedOp → Option (Except IoError DriverState)
  | [] => if st.is_empty then some (.ok st) else none
  | c :: rest =>
    if st.is_empty then
      some (.ok st)
    else
      match c.result with
      | .error e => some (.error e)
      | .ok _ => Driver.flushLoopAux { st with done := rest, space := st.space + 1 } rest

/-- Wait for all enqueued data to be sent on a driver
(the completed loop of EndpointSender::flush). -/
def Driver.flushLoop (st : DriverState) : Option (Except IoError DriverState) :=
  Driver.flushLoopAux st st.done

/-- Flush of an endpoint sender (mod.rs, EndpointSender::flush). -/
def EndpointSender.flush (io : EndpointIoSt) : Option (Except IoError EndpointIoSt) :=
  match Driver.flushLoop io.aio with
  | none => none
  | some (.error e) => some (.error e)
  | some (.ok aio) => some (.ok { io with aio })

/-- Enqueue a receive buffer without waiting (mod.rs, EndpointReceiver::try_recv):
the device file, then an AIO read submission. -/
def EndpointReceiver.try_recv (io : EndpointIoSt) (k : KernelSubmitOutcome) :
    Except IoError EndpointIoSt :=
  match EndpointIo.file io with
  | .error e => .error e
  | .ok () =>
    let out := Driver.submit io.aio k
    match out.result with
    | .error e => .error e
    | .ok _ => .ok { io with aio := out.state }

/-- The endpoint control interface operations (mod.rs, EndpointControl): every
method first accesses the endpoint device file and performs its ioctl or halt
I/O only on a live file. The kernel's answer is abstracted by kernelAnswer. -/
def EndpointControl.unclaimed_fifo (io : EndpointIoSt) (kernelAnswer : Nat) :
    Except IoError Nat :=
  match EndpointIo.file io with
  | .error e => .error e
  | .ok () => .ok kernelAnswer

/-- Discard unclaimed FIFO data (mod.rs, EndpointControl::discard_fifo). -/
def EndpointControl.discard_fifo (io : EndpointIoSt) : Except IoError Unit :=
  match EndpointIo.file io with
  | .error e => .error e
  | .ok () => .ok ()

/-- Set the endpoint halt feature (mod.rs, EndpointControl::halt): a 1-byte read
for a device-to-host endpoint, a 1-byte write for a host-to-device endpoint. -/
def EndpointControl.halt (io : EndpointIoSt) (direction : Direction) :
    Except IoError (List Ep0Action) :=
  match EndpointIo.file io with
  | .error e => .error e
  | .ok () =>
    match direction with
    | .deviceToHost => .ok [.readOp 1]
    | .hostToDevice => .ok [.writeOp 1]

/-- Clear the endpoint halt feature (mod.rs, EndpointControl::clear_halt). -/
def EndpointControl.clear_halt (io : EndpointIoSt) : Except IoError Unit :=
  match EndpointIo.file io with
  | .error e => .error e
  | .ok () => .ok ()

/-- Real endpoint address query (mod.rs, EndpointControl::real_address). -/
def EndpointControl.real_address (io : EndpointIoSt) (kernelAnswer : Nat) :
    Except IoError Nat :=
  match EndpointIo.file io with
  | .error e => .error e
  | .ok () => .ok kernelAnswer

/-- In-use endpoint descriptor query (mod.rs, EndpointControl::descriptor):
the ioctl fills a 9-byte buffer that is then parsed. -/
def EndpointControl.descriptor (io : EndpointIoSt) (kernelBuf : List Nat) :
    Except IoError (Option EndpointDesc) :=
  match EndpointIo.file io with
  | .error e => .error e
  | .ok () => .ok (EndpointDesc.parse kernelBuf)

/-- File descriptor of the endpoint (mod.rs, EndpointControl::fd). -/
def EndpointControl.fd (io : EndpointIoSt) (rawFd : Nat) : Except IoError Nat :=
  match EndpointIo.file io with
  | .error e => .error e
  | .ok () => .ok rawFd

/-! Derived notions used by the statements below. -/

/-- The reactor queue invariant: the space counter plus the in-flight operations
plus the undelivered completions always equals the queue length. -/
def DriverInv (st : DriverState) : Prop :=
  st.space + st.inflight.length + st.done.length = st.queue_length

/-- Iterated kernel-accepted submission. -/
def submitN (st : DriverState) : Nat → DriverState
  | 0 => st
  | k + 1 => (Driver.submit (submitN st k) .accepted).state

/-- Every language of a string table carries the same number of strings. -/
def UniformTable (tbl : StrTable) : Prop :=
  ∀ p ∈ tbl, p.2.length = Strings.strCount tbl

/-- Every language of a string table carries exactly c strings. -/
def AllLen (tbl : StrTable) (c : Nat) : Prop :=
  ∀ p ∈ tbl, p.2.length = c

/-! Concrete fixtures. -/

/-- A control-endpoint state with a forgotten device-to-host setup transfer. -/
def pendingD2H : CustomSt := ⟨some .deviceToHost⟩

/-- A 12-byte Bind event record. -/
def bindRecord : List Nat := [0, 0, 0, 0, 0, 0, 0, 0, 0, 0, 0, 0]

/-- A live control endpoint with one event record pending. -/
def worldOneEvent : Ep0World := ⟨true, [bindRecord]⟩

/-- A vendor-specific class triple. -/
def clsVendor : UsbClass := ⟨255, 0, 0⟩

/-- An interface association key. -/
def assocA : Association := ⟨1, clsVendor, [(1033, [102])]⟩

/-- An interface without an association. -/
def plainIntf : BInterface := ⟨clsVendor, [(1033, [105])], [], none, [], [], []⟩

/-- An interface that is a member of assocA. -/
def assocIntf : BInterface := ⟨clsVendor, [(1033, [106])], [], some assocA, [], [], []⟩

/-- Two interfaces where the association's only member is interface 1:
its members are trivially contiguous. -/
def builderAdjacent : CustomBuilder := ⟨[plainIntf, assocIntf], false, false⟩

/-- Three interfaces where the association's members are interfaces 0 and 2 while
interface 1 is not a member: the members are not contiguous. -/
def builderNonAdjacent : CustomBuilder := ⟨[assocIntf, plainIntf, assocIntf], false, false⟩

/-- An endpoint descriptor with the audio extension. -/
def audioEpDesc : EndpointDesc := ⟨0x81, 0x02, 512, 0, some ⟨5, 6⟩⟩

/-- A descriptor set with a single full-speed endpoint descriptor. -/
def descsEx : Descs :=
  { flags := {}, eventfd := none, fs_descrs := [.endpoint audioEpDesc],
    hs_descrs := [], ss_descrs := [], os_descrs := [] }

/-- The encoding of descsEx. -/
def descsExBytes : List Nat :=
  [3, 0, 0, 0, 37, 0, 0, 0, 15, 0, 0, 0, 1, 0, 0, 0, 0, 0, 0, 0, 0, 0, 0, 0,
   0, 0, 0, 0, 9, 5, 129, 2, 0, 2, 0, 5, 6]

/-- A torn-down endpoint: the device file was closed, no operations outstanding. -/
def removedEndpoint : EndpointIoSt := ⟨false, Driver.new 16⟩

/-- A torn-down control endpoint. -/
def removedWorld : Ep0World := ⟨false, []⟩

/-- A builder with a single association-free interface. -/
def builderPlain : CustomBuilder := ⟨[plainIntf], false, false⟩

/-- The interface descriptor built for plainIntf. -/
def plainIfDesc : InterfaceDesc := ⟨0, 0, 0, 255, 0, 0, 1⟩

/-- The descriptor set built by ffs_descs for builderPlain. -/
def plainDescs : Descs :=
  { flags := {}, eventfd := none, fs_descrs := [.interface plainIfDesc],
    hs_descrs := [.interface plainIfDesc], ss_descrs := [.interface plainIfDesc],
    os_descrs := [] }

/-- The string table built by ffs_descs for builderPlain. -/
def plainStrs : StrTable := [(1033, [[105]])]

/-! Helper lemmas. -/

theorem tryIntoU8_ok {n m : Nat} (h : tryIntoU8 n = some m) : m = n ∧ n ≤ 255 := by
  unfold tryIntoU8 at h
  by_cases hn : n ≤ 255
  · simp [hn] at h
    exact ⟨h.symm, hn⟩
  · simp [hn] at h

theorem tryIntoU32_ok {n m : Nat} (h : tryIntoU32 n = some m) :
    m = n ∧ n < 4294967296 := by
  unfold tryIntoU32 at h
  by_cases hn : n < 4294967296
  · simp [hn] at h
    exact ⟨h.symm, hn⟩
  · simp [hn] at h

theorem u32le_length (n : Nat) : (u32le n).length = 4 := by
  simp [u32le]

theorem patchBytes_u32_at4 (a b r : List Nat) (len : Nat)
    (ha : a.length = 4) (hb : b.length = 4) :
    patchBytes (a ++ b ++ r) 4 (u32le len) = a ++ u32le len ++ r := by
  unfold patchBytes
  have ht : (a ++ b ++ r).take 4 = a := by
    rw [List.append_assoc, ← ha, List.take_left]
  have hd : (a ++ b ++ r).drop (4 + (u32le len).length) = r := by
    rw [u32le_length]
    have h8 : (a ++ b).length = 8 := by simp [ha, hb]
    rw [show (4 + 4 : Nat) = (a ++ b).length from by rw [h8], List.drop_left]
  rw [ht, hd]

/-! Claim theorems. -/

/-- Claim C5: encoding an endpoint descriptor as a length-prefixed record via
Desc::to_bytes and parsing the bytes back with EndpointDesc::parse recovers
exactly the original fields, for both the 7-byte form without the audio
extension and the 9-byte form with it. -/
theorem endpoint_desc_roundtrip (d : EndpointDesc) (h : d.max_packet_size < 65536) :
    ∃ bs, Desc.to_bytes (Desc.endpoint d) = .ok bs ∧ EndpointDesc.parse bs = some d := by
  obtain ⟨addr, attrs, mps, intv, audio⟩ := d
  have h : mps < 65536 := h
  have hm : mps % 256 + 256 * (mps / 256 % 256) = mps := by omega
  cases audio with
  | none =>
    refine ⟨[7, EndpointDesc.TYPE, addr, attrs, mps % 256, mps / 256 % 256, intv], ?_, ?_⟩
    · simp [Desc.to_bytes, Desc.body, EndpointDesc.writeBytes, u16le, tryIntoU8,
            EndpointDesc.TYPE]
    · simp [EndpointDesc.parse, readU8, readU16le, EndpointDesc.SIZE,
            EndpointDesc.AUDIO_SIZE, EndpointDesc.TYPE, hm]
  | some a =>
    refine ⟨[9, EndpointDesc.TYPE, addr, attrs, mps % 256, mps / 256 % 256, intv,
             a.refresh, a.synch_address], ?_, ?_⟩
    · simp [Desc.to_bytes, Desc.body, EndpointDesc.writeBytes, u16le, tryIntoU8,
            EndpointDesc.TYPE]
    · simp [EndpointDesc.parse, readU8, readU16le, EndpointDesc.SIZE,
            EndpointDesc.AUDIO_SIZE, EndpointDesc.TYPE, hm]

/-- Witness for C5: the round trip at a concrete 9-byte audio descriptor. -/
theorem endpoint_desc_roundtrip_witness :
    audioEpDesc.max_packet_size < 65536 ∧
    ∃ bs, Desc.to_bytes (Desc.endpoint audioEpDesc) = .ok bs ∧
      EndpointDesc.parse bs = some audioEpDesc :=
  ⟨by decide, endpoint_desc_roundtrip audioEpDesc (by decide)⟩

/-- Claim C10: for a driver with no outstanding operations, the blocking
retrieval operations completed, completed_timeout and wait_completed return
None immediately without blocking and leave the driver state, in particular the
space counter, unchanged. -/
theorem empty_driver_retrieval (st : DriverState) (h : st.is_empty = true)
    (expired : Bool) :
    Driver.completed st = some (none, st) ∧
    Driver.completed_timeout st expired = (none, st) ∧
    Driver.wait_completed st = some (none, st) := by
  refine ⟨?_, ?_, ?_⟩ <;>
    simp [Driver.completed, Driver.completed_timeout, Driver.wait_completed, h]

/-- Witness for C10: a fresh driver of capacity 3 is empty and all three
retrieval operations return None on it. -/
theorem empty_driver_retrieval_witness :
    (Driver.new 3).is_empty = true ∧
    (Driver.completed (Driver.new 3) = some (none, Driver.new 3) ∧
     Driver.completed_timeout (Driver.new 3) false = (none, Driver.new 3) ∧
     Driver.wait_completed (Driver.new 3) = some (none, Driver.new 3)) :=
  ⟨by decide, empty_driver_retrieval (Driver.new 3) (by decide) false⟩

/-- Claim C2: with a still-pending setup state from a forgotten prior transfer,
event() and try_event() first perform the halt sequence (here the 1-byte read for
a pending device-to-host transfer) before reading the next 12-byte event record,
but event_timeout() reads the next event record without performing any halt
sequence at all, leaving the pending state undrained, contrary to the claim. -/
theorem event_timeout_skips_drain :
    Custom.event pendingD2H worldOneEvent =
      some (.ok (.bind, ⟨none⟩), ⟨true, []⟩, [.readOp 1, .readOp 12]) ∧
    Custom.try_event pendingD2H worldOneEvent =
      some (.ok (some (.bind, ⟨none⟩)), ⟨true, []⟩, [.readOp 1, .pollOp, .readOp 12]) ∧
    Custom.event_timeout pendingD2H worldOneEvent =
      some (.ok (some (.bind, pendingD2H)), ⟨true, []⟩, [.pollOp, .readOp 12]) ∧
    (Ep0Action.readOp 1 ∉ [Ep0Action.pollOp, Ep0Action.readOp 12] ∧
     Ep0Action.writeOp 1 ∉ [Ep0Action.pollOp, Ep0Action.readOp 12]) :=
  ⟨rfl, rfl, rfl, by decide⟩

/-- Claim C1: the adjacency check of CustomBuilder::ffs_descs, as written,
compares first_interface + interface_number against interface_number, which
degenerates to first_interface being zero: an association whose only member is
interface 1, trivially contiguous, is rejected with the adjacency error, while
an association covering the non-contiguous interfaces 0 and 2 is accepted and
emits an interface-association descriptor spanning interface 1, which is not a
member. -/
theorem assoc_adjacency_divergence :
    CustomBuilder.ffs_descs builderAdjacent = .error .assocNotAdjacent ∧
    (∃ d strs, CustomBuilder.ffs_descs builderNonAdjacent = .ok (d, strs) ∧
      Desc.interfaceAssoc
        { first_interface := 0, interface_count := 2, function_class := 255,
          function_sub_class := 0, function_protocol := 0, name_idx := 2 }
        ∈ d.fs_descrs) :=
  ⟨rfl, ⟨_, _, rfl, by decide⟩⟩

/-- Claim C8, counterexample: after the gadget files are closed, flush on an
endpoint sender with an empty queue returns success and not the gadget-removed
failure the claim requires, because flush only drains the completion channel and
never touches the endpoint file. -/
theorem flush_after_removal_succeeds :
    EndpointSender.flush removedEndpoint = some (.ok removedEndpoint) ∧
    (∀ e : IoError, EndpointSender.flush removedEndpoint ≠ some (.error e)) := by
  constructor
  · rfl
  · intro e hc
    rw [show EndpointSender.flush removedEndpoint = some (.ok removedEndpoint) from rfl]
      at hc
    exact absurd (Option.some.inj hc) (by simp)


theorem except_bind_ok {ε α β : Type} (a : α) (f : α → Except ε β) :
    (Except.ok a >>= f) = f a := rfl

theorem except_bind_err {ε α β : Type} (e : ε) (f : α → Except ε β) :
    ((Except.error e : Except ε α) >>= f) = Except.error e := rfl

theorem except_map_ok {ε α β : Type} (a : α) (f : α → β) :
    (f <$> (Except.ok a : Except ε α)) = Except.ok (f a) := rfl

theorem except_map_err {ε α β : Type} (e : ε) (f : α → β) :
    (f <$> (Except.error e : Except ε α)) = (Except.error e : Except ε β) := rfl

theorem strings_to_bytes_ok_shape (tbl : StrTable)
    (hall : (tbl.all fun p => p.2.length = Strings.strCount tbl) = true) :
    Strings.to_bytes tbl = .error .overflow ∨
    ∃ data, Strings.to_bytes tbl = .ok data ∧
      data = u32le Strings.MAGIC ++ u32le data.length ++ u32le (Strings.strCount tbl) ++
        u32le tbl.length ++ Strings.body tbl := by
  unfold Strings.to_bytes
  rw [if_pos hall]
  cases h1 : tryIntoU32 (Strings.strCount tbl) with
  | none => left; simp only [exceptOfOption, h1, except_bind_err]
  | some sc =>
    cases h2 : tryIntoU32 tbl.length with
    | none => left; simp only [exceptOfOption, h1, h2, except_bind_ok, except_bind_err]
    | some lc =>
      obtain ⟨rfl, -⟩ := tryIntoU32_ok h1
      obtain ⟨rfl, -⟩ := tryIntoU32_ok h2
      cases h3 : tryIntoU32 (u32le Strings.MAGIC ++ u32le 0 ++
          u32le (Strings.strCount tbl) ++ u32le tbl.length ++ Strings.body tbl).length with
      | none =>
        left
        simp only [exceptOfOption, h1, h2, h3, except_bind_ok, except_bind_err,
          except_map_err]
      | some len =>
        right
        obtain ⟨rfl, -⟩ := tryIntoU32_ok h3
        refine ⟨patchBytes (u32le Strings.MAGIC ++ u32le 0 ++
            u32le (Strings.strCount tbl) ++ u32le tbl.length ++ Strings.body tbl) 4
            (u32le (u32le Strings.MAGIC ++ u32le 0 ++ u32le (Strings.strCount tbl) ++
              u32le tbl.length ++ Strings.body tbl).length), ?_, ?_⟩
        · simp only [exceptOfOption, h1, h2, h3, except_bind_ok, except_map_ok]
          rfl
        · have hpatch := patchBytes_u32_at4 (u32le Strings.MAGIC) (u32le 0)
            (u32le (Strings.strCount tbl) ++ (u32le tbl.length ++ Strings.body tbl))
            ((u32le Strings.MAGIC ++ u32le 0 ++ u32le (Strings.strCount tbl) ++
              u32le tbl.length ++ Strings.body tbl).length)
            (u32le_length _) (u32le_length _)
          rw [show (u32le Strings.MAGIC ++ u32le 0 ++ u32le (Strings.strCount tbl) ++
              u32le tbl.length ++ Strings.body tbl) =
              (u32le Strings.MAGIC ++ u32le 0 ++ (u32le (Strings.strCount tbl) ++
                (u32le tbl.length ++ Strings.body tbl))) from by simp [List.append_assoc]]
            at hpatch ⊢
          rw [hpatch]
          have hlen : (u32le Strings.MAGIC ++ u32le
              ((u32le Strings.MAGIC ++ u32le 0 ++ (u32le (Strings.strCount tbl) ++
                (u32le tbl.length ++ Strings.body tbl))).length) ++
              (u32le (Strings.strCount tbl) ++ (u32le tbl.length ++ Strings.body tbl))).length =
              (u32le Strings.MAGIC ++ u32le 0 ++ (u32le (Strings.strCount tbl) ++
                (u32le tbl.length ++ Strings.body tbl))).length := by
            simp [u32le_length]
          rw [hlen]
          simp [List.append_assoc]

/-- Claim C6: the string-table encoder returns the StringsDifferAcrossLanguages
error exactly when two languages of the table carry different string counts, and
every successfully encoded table yields the magic, the patched total length, the
common string count, the language count, and then per language the u16 LE
language id followed by exactly that many NUL-terminated strings in index
order. -/
theorem strings_encode_spec (tbl : StrTable) :
    (Strings.to_bytes tbl = .error .stringsDifferAcrossLanguages ↔
      ∃ p ∈ tbl, ∃ q ∈ tbl, p.2.length ≠ q.2.length) ∧
    (∀ data, Strings.to_bytes tbl = .ok data →
      AllLen tbl (Strings.strCount tbl) ∧
      data = u32le Strings.MAGIC ++ u32le data.length ++ u32le (Strings.strCount tbl) ++
        u32le tbl.length ++ Strings.body tbl) := by
  by_cases hall : (tbl.all fun p => p.2.length = Strings.strCount tbl) = true
  · have hAll : AllLen tbl (Strings.strCount tbl) := by
      intro p hp
      have := List.all_eq_true.mp hall p hp
      exact of_decide_eq_true this
    constructor
    · constructor
      · intro herr
        rcases strings_to_bytes_ok_shape tbl hall with hov | ⟨data, hok, -⟩
        · rw [herr] at hov
          exact absurd (Except.error.inj hov) (by simp)
        · rw [herr] at hok
          exact absurd hok (by simp)
      · rintro ⟨p, hp, q, hq, hne⟩
        exact absurd ((hAll p hp).trans (hAll q hq).symm) hne
    · intro data hdata
      rcases strings_to_bytes_ok_shape tbl hall with hov | ⟨data', hok, hshape⟩
      · rw [hdata] at hov
        exact absurd hov (by simp)
      · rw [hdata] at hok
        obtain rfl := Except.ok.inj hok
        exact ⟨hAll, hshape⟩
  · have herr : Strings.to_bytes tbl = .error .stringsDifferAcrossLanguages := by
      unfold Strings.to_bytes
      rw [if_neg hall]
    constructor
    · have hex : ∃ p ∈ tbl, ∃ q ∈ tbl, p.2.length ≠ q.2.length := by
        rw [List.all_eq_true] at hall
        push_neg at hall
        obtain ⟨p, hp, hne⟩ := hall
        have hne' : p.2.length ≠ Strings.strCount tbl := by
          intro hcontra
          exact hne (decide_eq_true hcontra)
        cases tbl with
        | nil => cases hp
        | cons h t =>
          refine ⟨p, hp, h, List.mem_cons_self h t, ?_⟩
          have : Strings.strCount (h :: t) = h.2.length := by
            simp [Strings.strCount]
          rw [← this]
          exact hne'
      rw [herr]
      exact iff_of_true rfl hex
    · intro data hdata
      rw [herr] at hdata
      exact absurd hdata (by simp)

theorem patchBytes_u32_at4R (a b r : List Nat) (len : Nat)
    (ha : a.length = 4) (hb : b.length = 4) :
    patchBytes (a ++ (b ++ r)) 4 (u32le len) = a ++ (u32le len ++ r) := by
  have := patchBytes_u32_at4 a b r len ha hb
  simpa [List.append_assoc] using this

theorem desc_to_bytes_head {d : Desc} {r : List Nat} (h : Desc.to_bytes d = .ok r) :
    r.head? = some r.length := by
  simp only [Desc.to_bytes] at h
  cases htry : tryIntoU8 (0 :: d.body).length with
  | none => rw [htry] at h; cases h
  | some len =>
    rw [htry] at h
    obtain ⟨hlen, -⟩ := tryIntoU8_ok htry
    obtain rfl := Except.ok.inj h
    simp only [List.head?, List.length_cons]
    rw [hlen]
    simp

theorem encodeRecords_mem {α : Type} (f : α → Except FfsError (List Nat)) :
    ∀ (l : List α) (rs : List (List Nat)), encodeRecords f l = .ok rs →
      ∀ r ∈ rs, ∃ a ∈ l, f a = .ok r := by
  intro l
  induction l with
  | nil =>
    intro rs h r hr
    unfold encodeRecords at h
    obtain rfl := Except.ok.inj h
    cases hr
  | cons a t ih =>
    intro rs h r hr
    unfold encodeRecords at h
    cases hfa : f a with
    | error e => simp only [hfa, except_bind_err] at h; cases h
    | ok rb =>
      cases hrest : encodeRecords f t with
      | error e => simp only [hfa, hrest, except_bind_ok, except_bind_err] at h; cases h
      | ok rbs =>
        simp only [hfa, hrest, except_bind_ok] at h
        obtain rfl := Except.ok.inj h
        rcases List.mem_cons.mp hr with rfl | hr'
        · exact ⟨a, List.mem_cons_self a t, hfa⟩
        · obtain ⟨b, hb, hfb⟩ := ih rbs hrest r hr'
          exact ⟨b, List.mem_cons_of_mem a hb, hfb⟩

set_option maxHeartbeats 1600000 in
/-- Claim C7: in every successfully encoded descriptor set, each descriptor
record's patched first byte equals that record's actual byte count (the distance
from its start to the next record boundary in the concatenation), and the u32 LE
total-length field at offset 4 equals the length of the complete blob. -/
theorem descs_length_invariant (kernelGe64 : Bool) (d : Descs) (data : List Nat)
    (h : Descs.to_bytes kernelGe64 d = .ok data) :
    ∃ fsR hsR ssR osR,
      encodeRecords Desc.to_bytes d.fs_descrs = .ok fsR ∧
      encodeRecords Desc.to_bytes d.hs_descrs = .ok hsR ∧
      encodeRecords Desc.to_bytes d.ss_descrs = .ok ssR ∧
      encodeRecords (OsDesc.to_bytes kernelGe64) d.os_descrs = .ok osR ∧
      (∀ r, r ∈ fsR ++ hsR ++ ssR → r.head? = some r.length) ∧
      data = u32le Descs.MAGIC_V2 ++ u32le data.length ++ u32le (effectiveFlags d).bits ++
        eventfdBytes d.eventfd ++ u32le d.fs_descrs.length ++ u32le d.hs_descrs.length ++
        u32le d.ss_descrs.length ++ u32le d.os_descrs.length ++
        fsR.flatten ++ hsR.flatten ++ ssR.flatten ++ osR.flatten := by
  unfold Descs.to_bytes at h
  cases h1 : tryIntoU32 d.fs_descrs.length with
  | none =>
    simp only [h1, exceptOfOption, except_bind_err] at h
    exact Except.noConfusion h
  | some fsCnt =>
  cases h2 : tryIntoU32 d.hs_descrs.length with
  | none =>
    simp only [h1, h2, exceptOfOption, except_bind_ok, except_bind_err] at h
    exact Except.noConfusion h
  | some hsCnt =>
  cases h3 : tryIntoU32 d.ss_descrs.length with
  | none =>
    simp only [h1, h2, h3, exceptOfOption, except_bind_ok, except_bind_err] at h
    exact Except.noConfusion h
  | some ssCnt =>
  cases h4 : tryIntoU32 d.os_descrs.length with
  | none =>
    simp only [h1, h2, h3, h4, exceptOfOption, except_bind_ok, except_bind_err] at h
    exact Except.noConfusion h
  | some osCnt =>
  cases h5 : encodeRecords Desc.to_bytes d.fs_descrs with
  | error e =>
    simp only [h1, h2, h3, h4, h5, exceptOfOption, except_bind_ok, except_bind_err] at h
    exact Except.noConfusion h
  | ok fsR =>
  cases h6 : encodeRecords Desc.to_bytes d.hs_descrs with
  | error e =>
    simp only [h1, h2, h3, h4, h5, h6, exceptOfOption, except_bind_ok, except_bind_err] at h
    exact Except.noConfusion h
  | ok hsR =>
  cases h7 : encodeRecords Desc.to_bytes d.ss_descrs with
  | error e =>
    simp only [h1, h2, h3, h4, h5, h6, h7, exceptOfOption, except_bind_ok, except_bind_err] at h
    exact Except.noConfusion h
  | ok ssR =>
  cases h8 : encodeRecords (OsDesc.to_bytes kernelGe64) d.os_descrs with
  | error e =>
    simp only [h1, h2, h3, h4, h5, h6, h7, h8, exceptOfOption, except_bind_ok,
      except_bind_err] at h
    exact Except.noConfusion h
  | ok osR =>
  obtain ⟨rfl, -⟩ := tryIntoU32_ok h1
  obtain ⟨rfl, -⟩ := tryIntoU32_ok h2
  obtain ⟨rfl, -⟩ := tryIntoU32_ok h3
  obtain ⟨rfl, -⟩ := tryIntoU32_ok h4
  cases h9 : tryIntoU32 (u32le Descs.MAGIC_V2 ++ u32le 0 ++ u32le (effectiveFlags d).bits ++
      eventfdBytes d.eventfd ++ u32le d.fs_descrs.length ++ u32le d.hs_descrs.length ++
      u32le d.ss_descrs.length ++ u32le d.os_descrs.length ++
      fsR.flatten ++ hsR.flatten ++ ssR.flatten ++ osR.flatten).length with
  | none =>
    simp only [h1, h2, h3, h4, h5, h6, h7, h8, h9, exceptOfOption, except_bind_ok,
      except_bind_err, except_map_err] at h
    exact Except.noConfusion h
  | some len =>
    obtain ⟨rfl, -⟩ := tryIntoU32_ok h9
    simp only [h1, h2, h3, h4, h5, h6, h7, h8, h9, exceptOfOption, except_bind_ok,
      except_map_ok] at h
    obtain rfl := Except.ok.inj h
    refine ⟨fsR, hsR, ssR, osR, rfl, rfl, rfl, rfl, ?_, ?_⟩
    · intro r hr
      rcases List.mem_append.mp hr with hr' | hss
      · rcases List.mem_append.mp hr' with hfs | hhs
        · obtain ⟨a, -, hfa⟩ := encodeRecords_mem Desc.to_bytes d.fs_descrs fsR h5 r hfs
          exact desc_to_bytes_head hfa
        · obtain ⟨a, -, hfa⟩ := encodeRecords_mem Desc.to_bytes d.hs_descrs hsR h6 r hhs
          exact desc_to_bytes_head hfa
      · obtain ⟨a, -, hfa⟩ := encodeRecords_mem Desc.to_bytes d.ss_descrs ssR h7 r hss
        exact desc_to_bytes_head hfa
    · simp only [List.append_assoc]
      rw [patchBytes_u32_at4R _ _ _ _ (u32le_length _) (u32le_length _)]
      congr 2

theorem driverStep_preserves {st st' : DriverState} (h : DriverStep st st')
    (hinv : DriverInv st) : DriverInv st' ∧ st'.queue_length = st.queue_length := by
  simp only [DriverInv] at hinv
  cases h with
  | submit k =>
    unfold Driver.submit
    by_cases hf : st.is_full = true
    · rw [if_pos hf]
      exact ⟨hinv, rfl⟩
    · rw [if_neg hf]
      have hs : st.space ≠ 0 := by
        simpa [DriverState.is_full] using hf
      cases k <;> refine ⟨?_, rfl⟩ <;> simp [DriverInv] <;> omega
  | kernelComplete c hmem =>
    unfold Driver.kernelComplete
    have hlen := List.length_erase_of_mem hmem
    have hpos : 0 < st.inflight.length := List.length_pos_of_mem hmem
    refine ⟨?_, rfl⟩
    simp [DriverInv, hlen]
    omega
  | completed r st2 heq =>
    unfold Driver.completed at heq
    split at heq
    · obtain ⟨-, rfl⟩ := Prod.mk.injEq .. ▸ Option.some.inj heq
      exact ⟨hinv, rfl⟩
    · split at heq
      · cases heq
      · rename_i c rest hd
        obtain ⟨-, h2⟩ := Prod.mk.injEq .. ▸ Option.some.inj heq
        subst h2
        refine ⟨?_, rfl⟩
        rw [hd] at hinv
        simp at hinv
        simp [DriverInv]
        omega
  | completedTimeout expired =>
    rcases hct : Driver.completed_timeout st expired with ⟨r, st2⟩
    simp only []
    unfold Driver.completed_timeout at hct
    split at hct
    · obtain ⟨-, h2⟩ := Prod.mk.injEq .. ▸ hct
      subst h2
      exact ⟨hinv, rfl⟩
    · split at hct
      · obtain ⟨-, h2⟩ := Prod.mk.injEq .. ▸ hct
        subst h2
        exact ⟨hinv, rfl⟩
      · split at hct
        · obtain ⟨-, h2⟩ := Prod.mk.injEq .. ▸ hct
          subst h2
          exact ⟨hinv, rfl⟩
        · rename_i c rest hd hx
          obtain ⟨-, h2⟩ := Prod.mk.injEq .. ▸ hct
          subst h2
          refine ⟨?_, rfl⟩
          rw [hd] at hinv
          simp at hinv
          simp [DriverInv]
          omega
  | tryCompleted =>
    rcases htc : Driver.try_completed st with ⟨r, st2⟩
    simp only []
    unfold Driver.try_completed at htc
    split at htc
    · obtain ⟨-, h2⟩ := Prod.mk.injEq .. ▸ htc
      subst h2
      exact ⟨hinv, rfl⟩
    · rename_i c rest hd
      obtain ⟨-, h2⟩ := Prod.mk.injEq .. ▸ htc
      subst h2
      refine ⟨?_, rfl⟩
      rw [hd] at hinv
      simp at hinv
      simp [DriverInv]
      omega
  | waitCompleted r st2 heq =>
    unfold Driver.wait_completed at heq
    split at heq
    · obtain ⟨-, rfl⟩ := Prod.mk.injEq .. ▸ Option.some.inj heq
      exact ⟨hinv, rfl⟩
    · split at heq
      · cases heq
      · rename_i c rest hd
        obtain ⟨-, h2⟩ := Prod.mk.injEq .. ▸ Option.some.inj heq
        subst h2
        refine ⟨?_, rfl⟩
        rw [hd] at hinv
        simp at hinv
        simp [DriverInv]
        omega

theorem driverInv_reachable {n : Nat} {st : DriverState}
    (h : DriverReachable (Driver.new n) st) :
    DriverInv st ∧ st.queue_length = n := by
  induction h with
  | refl => exact ⟨by simp [Driver.new, DriverInv], rfl⟩
  | step hr hs ih =>
    obtain ⟨hinv, hq⟩ := ih
    obtain ⟨hinv', hq'⟩ := driverStep_preserves hs hinv
    exact ⟨hinv', hq'.trans hq⟩

theorem submitN_facts (n : Nat) : ∀ k, k ≤ n →
    (submitN (Driver.new n) k).space = n - k ∧
    (submitN (Driver.new n) k).queue_length = n ∧
    (submitN (Driver.new n) k).done = [] := by
  intro k
  induction k with
  | zero => intro _; exact ⟨rfl, rfl, rfl⟩
  | succ k ih =>
    intro hk
    obtain ⟨hs, hq, hd⟩ := ih (Nat.le_of_succ_le hk)
    have hnotfull : (submitN (Driver.new n) k).is_full = false := by
      simp [DriverState.is_full, hs]
      omega
    unfold submitN Driver.submit
    rw [hnotfull]
    simp only [Bool.false_eq_true, if_false]
    refine ⟨?_, ?_, ?_⟩ <;> simp [hs, hq, hd] <;> omega

theorem submitN_reachable (n : Nat) : ∀ k,
    DriverReachable (Driver.new n) (submitN (Driver.new n) k) := by
  intro k
  induction k with
  | zero => exact .refl
  | succ k ih => exact .step ih (.submit (submitN (Driver.new n) k) .accepted)

/-- Claim C3: for a reactor of capacity n the space counter stays within 0 and n
over every sequence of submissions, kernel completions and retrievals; each of
the first n submissions succeeds, after n submissions the queue is full and the
next submission fails with the WouldBlock capacity error, and after one kernel
completion is retrieved exactly one further submission succeeds before the queue
is full again. -/
theorem reactor_capacity (n : Nat) (hn : 0 < n) (st : DriverState)
    (hreach : DriverReachable (Driver.new n) st) :
    st.space ≤ n ∧
    (∀ k, k < n → (Driver.submit (submitN (Driver.new n) k) .accepted).result =
      .ok (submitN (Driver.new n) k).next_id) ∧
    (submitN (Driver.new n) n).is_full = true ∧
    (Driver.submit (submitN (Driver.new n) n) KernelSubmitOutcome.accepted).result =
      .error .noQueueSpace ∧
    (∀ c : CompletedOp,
      ∃ st1, Driver.completed (Driver.kernelComplete (submitN (Driver.new n) n) c) =
          some (some c, st1) ∧
        (Driver.submit st1 .accepted).result = .ok st1.next_id ∧
        (Driver.submit (Driver.submit st1 .accepted).state .accepted).result =
          .error .noQueueSpace) := by
  refine ⟨?_, ?_, ?_, ?_, ?_⟩
  · obtain ⟨hinv, hq⟩ := driverInv_reachable hreach
    simp only [DriverInv] at hinv
    omega
  · intro k hk
    obtain ⟨hs, hq, hd⟩ := submitN_facts n k (Nat.le_of_lt hk)
    have hnf : (submitN (Driver.new n) k).is_full = false := by
      simp [DriverState.is_full, hs]
      omega
    unfold Driver.submit
    rw [hnf]
    simp
  · obtain ⟨hs, -, -⟩ := submitN_facts n n (le_refl n)
    simp [DriverState.is_full, hs]
  · obtain ⟨hs, -, -⟩ := submitN_facts n n (le_refl n)
    have hf : (submitN (Driver.new n) n).is_full = true := by
      simp [DriverState.is_full, hs]
    unfold Driver.submit
    rw [hf]
    simp
  · intro c
    obtain ⟨hs, hq, hd⟩ := submitN_facts n n (le_refl n)
    refine ⟨{ submitN (Driver.new n) n with
              inflight := (submitN (Driver.new n) n).inflight.erase c.id,
              done := [], space := (submitN (Driver.new n) n).space + 1 }, ?_, ?_, ?_⟩
    · unfold Driver.completed Driver.kernelComplete
      have hie : ((submitN (Driver.new n) n).space ==
          (submitN (Driver.new n) n).queue_length) = false := by
        rw [hs, hq]
        simp
        omega
      simp [DriverState.is_empty, hie, hd]
    · unfold Driver.submit
      have hnf : ¬((submitN (Driver.new n) n).space + 1 = 0) := by omega
      simp [DriverState.is_full, hnf]
    · unfold Driver.submit
      simp [DriverState.is_full, hs]

theorem deliverEvents_fresh (id : Nat) :
    ∀ (queue active delivered : List Nat), id ∉ active → id ∉ delivered →
      id ∉ (deliverEvents active queue delivered).2.2 := by
  intro queue
  induction queue with
  | nil =>
    intro active delivered _ hdel
    simpa [deliverEvents] using hdel
  | cons q rest ih =>
    intro active delivered hact hdel
    by_cases hq : q ∈ active
    · have hne : id ≠ q := fun h => hact (h ▸ hq)
      have h1 : id ∉ active.erase q := fun h => hact (List.mem_of_mem_erase h)
      have h2 : id ∉ delivered ++ [q] := by
        simp [hne]
        exact hdel
      simpa [deliverEvents, hq] using ih (active.erase q) (delivered ++ [q]) h1 h2
    · simpa [deliverEvents, hq] using hdel

theorem runCmds_insert_remove (id : Nat) (active : List Nat) (hfresh : id ∉ active) :
    runCmds [.insert id, .remove id] active [] = some (active, []) := by
  unfold runCmds
  rw [if_neg hfresh]
  unfold runCmds
  have hmem : id ∈ active ++ [id] := by simp
  rw [if_pos hmem]
  have herase : (active ++ [id]).erase id = active := by
    rw [List.erase_append_right _ hfresh]
    simp
  rw [herase]
  rfl

/-- Claim C4: Driver::submit sends the Insert command for the new operation id
before issuing the kernel submission; on kernel rejection it sends a Remove
command for the same id and propagates an error with the space counter
unchanged, and the worker, after processing that Insert and Remove, no longer
tracks the id and never delivers a completion for it; on kernel acceptance it
decrements space, wakes the worker through the eventfd, and returns the handle
carrying the id. -/
theorem submit_registers_before_kernel (st : DriverState) (k : KernelSubmitOutcome)
    (hfull : st.is_full = false) (active queue : List Nat)
    (hfresh : st.next_id ∉ active) :
    ((Driver.submit st k).trace.take 2 =
      [.sendInsert st.next_id, .kernelSubmit st.next_id]) ∧
    (k ≠ .accepted →
      (∃ e, (Driver.submit st k).result = .error e) ∧
      (Driver.submit st k).state.space = st.space ∧
      (Driver.submit st k).trace =
        [.sendInsert st.next_id, .kernelSubmit st.next_id, .sendRemove st.next_id,
         .eventfdWrite] ∧
      runCmds [.insert st.next_id, .remove st.next_id] active [] = some (active, []) ∧
      st.next_id ∉ (deliverEvents active queue []).2.2) ∧
    (k = .accepted →
      (Driver.submit st k).result = .ok st.next_id ∧
      (Driver.submit st k).state.space = st.space - 1 ∧
      (Driver.submit st k).trace =
        [.sendInsert st.next_id, .kernelSubmit st.next_id, .eventfdWrite]) := by
  unfold Driver.submit
  rw [hfull]
  simp only [Bool.false_eq_true, if_false]
  refine ⟨?_, ?_, ?_⟩
  · cases k <;> rfl
  · intro hk
    cases k with
    | accepted => exact absurd rfl hk
    | notAccepted =>
      exact ⟨⟨.requestNotAccepted, rfl⟩, rfl, rfl,
        runCmds_insert_remove st.next_id active hfresh,
        deliverEvents_fresh st.next_id queue active [] hfresh (by simp)⟩
    | failed errno =>
      exact ⟨⟨.osError errno, rfl⟩, rfl, rfl,
        runCmds_insert_remove st.next_id active hfresh,
        deliverEvents_fresh st.next_id queue active [] hfresh (by simp)⟩
  · intro hk
    subst hk
    exact ⟨rfl, rfl, rfl⟩

theorem except_bind_ok_inv {ε α β : Type} {m : Except ε α} {f : α → Except ε β}
    {b : β} (h : (m >>= f) = .ok b) : ∃ a, m = .ok a ∧ f a = .ok b := by
  cases m with
  | error e => cases h
  | ok a => exact ⟨a, rfl, h⟩

theorem addStrings_allLen {strs : LangMap} {tbl : StrTable} {idx : Nat} {tbl' : StrTable}
    (h : addStrings strs tbl = .ok (idx, tbl')) (hu : UniformTable tbl) :
    AllLen tbl' (Strings.strCount tbl + 1) := by
  simp only [addStrings] at h
  cases htry : tryIntoU8 (Strings.strCount tbl + 1) with
  | none => rw [htry] at h; cases h
  | some i =>
    rw [htry] at h
    obtain ⟨-, h2⟩ := Prod.mk.injEq .. ▸ Except.ok.inj h
    subst h2
    intro p hp
    rcases List.mem_append.mp hp with hm | hm
    · obtain ⟨q, hq, rfl⟩ := List.mem_map.mp hm
      simpa using hu q hq
    · obtain ⟨l, hl, rfl⟩ := List.mem_map.mp hm
      simp

theorem allLen_uniform {tbl : StrTable} {c : Nat} (h : AllLen tbl c) :
    UniformTable tbl := by
  intro p hp
  cases tbl with
  | nil => cases hp
  | cons q t =>
    have hq : Strings.strCount (q :: t) = q.2.length := by
      simp [Strings.strCount]
    rw [hq, h p hp, h q (by simp)]

theorem addEndpoints_strings :
    ∀ (eps : List BEndpoint) (st st' : BuildState),
      addEndpoints st eps = .ok st' → st'.strings = st.strings := by
  intro eps
  induction eps with
  | nil =>
    intro st st' h
    obtain rfl := Except.ok.inj h
    rfl
  | cons ep rest ih =>
    intro st st' h
    unfold addEndpoints at h
    by_cases hge : st.endpoint_num + 1 ≥ DIR_IN
    · rw [if_pos hge] at h
      cases h
    · rw [if_neg hge] at h
      exact (ih _ _ h).trans rfl

theorem assocStep_eq_some {assoc : Association} {i : Nat} {st : BuildState}
    {iad : InterfaceAssocDesc} (hl : lookupAssoc st.assocs assoc = some iad) :
    assocStep assoc i st = assocBump assoc i iad st := by
  unfold assocStep
  rw [hl]

theorem assocStep_eq_none {assoc : Association} {i : Nat} {st : BuildState}
    (hl : lookupAssoc st.assocs assoc = none) :
    assocStep assoc i st = (do
      let (name_idx, strings) ← addStrings assoc.name st.strings
      assocInsert assoc i name_idx strings st) := by
  unfold assocStep
  rw [hl]

theorem assocStep_uniform {assoc : Association} {i : Nat} {st st' : BuildState}
    (h : assocStep assoc i st = .ok st') (hu : UniformTable st.strings) :
    UniformTable st'.strings := by
  cases hl : lookupAssoc st.assocs assoc with
  | some iad =>
    rw [assocStep_eq_some hl] at h
    unfold assocBump at h
    by_cases hc : iad.first_interface + i ≠ i
    · rw [if_pos hc] at h
      cases h
    · rw [if_neg hc] at h
      obtain rfl := Except.ok.inj h
      exact hu
  | none =>
    rw [assocStep_eq_none hl] at h
    obtain ⟨pr, hadd, h⟩ := except_bind_ok_inv h
    obtain ⟨idx, strs1⟩ := pr
    replace h : assocInsert assoc i idx strs1 st = .ok st' := h
    simp only [assocInsert] at h
    by_cases hc : (i : Nat) + i ≠ i
    · rw [if_pos hc] at h
      cases h
    · rw [if_neg hc] at h
      obtain rfl := Except.ok.inj h
      exact allLen_uniform (addStrings_allLen hadd hu)

theorem osSteps_strings (i : Nat) (intf : BInterface) (st : BuildState) :
    (osSteps i intf st).strings = st.strings := by
  unfold osSteps
  split <;> split <;> rfl

theorem processInterface_uniform {i : Nat} {intf : BInterface} {st st' : BuildState}
    (h : processInterface i intf st = .ok st') (hu : UniformTable st.strings) :
    UniformTable st'.strings := by
  unfold processInterface at h
  by_cases hnum : i > 255
  · rw [if_pos hnum] at h
    cases h
  · rw [if_neg hnum] at h
    cases hne : tryIntoU8 intf.endpoints.length with
    | none => rw [hne] at h; cases h
    | some num_endpoints =>
      rw [hne] at h
      obtain ⟨pr, hadd, h⟩ := except_bind_ok_inv h
      obtain ⟨idx, strs1⟩ := pr
      have hu1 : UniformTable strs1 := allLen_uniform (addStrings_allLen hadd hu)
      obtain ⟨stA, hA, h⟩ := except_bind_ok_inv h
      have hAs : stA.strings = strs1 := addEndpoints_strings _ _ _ hA
      have huA : UniformTable stA.strings := by
        rw [hAs]
        exact hu1
      cases hassoc : intf.association with
      | none =>
        rw [hassoc] at h
        obtain rfl := Except.ok.inj h
        rw [osSteps_strings]
        exact huA
      | some assoc =>
        rw [hassoc] at h
        obtain ⟨stB, hB, h⟩ := except_bind_ok_inv h
        obtain rfl := Except.ok.inj h
        rw [osSteps_strings]
        exact assocStep_uniform hB huA

theorem processInterfaces_uniform :
    ∀ (intfs : List BInterface) (i : Nat) (st st' : BuildState),
      processInterfaces i st intfs = .ok st' → UniformTable st.strings →
      UniformTable st'.strings := by
  intro intfs
  induction intfs with
  | nil =>
    intro i st st' h hu
    obtain rfl := Except.ok.inj h
    exact hu
  | cons intf rest ih =>
    intro i st st' h hu
    unfold processInterfaces at h
    obtain ⟨st1, h1, h⟩ := except_bind_ok_inv h
    exact ih _ _ _ h (processInterface_uniform h1 hu)

theorem ffs_descs_uniform {b : CustomBuilder} {descs : Descs} {strs : StrTable}
    (h : b.ffs_descs = .ok (descs, strs)) : UniformTable strs := by
  unfold CustomBuilder.ffs_descs at h
  obtain ⟨st, h1, h⟩ := except_bind_ok_inv h
  obtain ⟨-, h2⟩ := Prod.mk.injEq .. ▸ Except.ok.inj h
  subst h2
  exact processInterfaces_uniform b.interfaces 0 _ st h1 (by intro p hp; cases hp)

theorem uniform_to_bytes_ne {tbl : StrTable} (hu : UniformTable tbl) :
    Strings.to_bytes tbl ≠ .error .stringsDifferAcrossLanguages := by
  have hall : (tbl.all fun p => p.2.length = Strings.strCount tbl) = true := by
    rw [List.all_eq_true]
    intro p hp
    exact decide_eq_true (hu p hp)
  intro hc
  rcases strings_to_bytes_ok_shape tbl hall with hov | ⟨data, hok, -⟩
  · rw [hc] at hov
    exact absurd (Except.error.inj hov) (by simp)
  · rw [hc] at hok
    exact Except.noConfusion hok

/-- Claim C9: every add_strings step of CustomBuilder::ffs_descs keeps all
languages at the same string count, so the string table of every successful
descriptor build is uniform and serializing it can never fail with the
StringsDifferAcrossLanguages error. -/
theorem builder_strings_uniform (b : CustomBuilder) (descs : Descs) (strs : StrTable)
    (h : b.ffs_descs = .ok (descs, strs)) :
    (∀ (name : LangMap) (tbl : StrTable) (idx : Nat) (tbl' : StrTable),
        UniformTable tbl → addStrings name tbl = .ok (idx, tbl') → UniformTable tbl') ∧
    UniformTable strs ∧
    Strings.to_bytes strs ≠ .error .stringsDifferAcrossLanguages := by
  have hu := ffs_descs_uniform h
  exact ⟨fun name tbl idx tbl' hut hadd => allLen_uniform (addStrings_allLen hadd hut),
    hu, uniform_to_bytes_ne hu⟩

theorem drainDoneAux_ok :
    ∀ (l : List CompletedOp) (st : DriverState), (∀ c ∈ l, 0 ≤ c.res) →
      ∃ st', drainDoneAux st l = .ok st' := by
  intro l
  induction l with
  | nil =>
    intro st _
    exact ⟨st, rfl⟩
  | cons c rest ih =>
    intro st h
    have hc : 0 ≤ c.res := h c (by simp)
    have hres : c.result = .ok c.res := by
      simp [CompletedOp.result, hc]
    unfold drainDoneAux
    rw [hres]
    exact ih _ fun x hx => h x (by simp [hx])

theorem readyLoopAux_not_full (st : DriverState) (l : List CompletedOp)
    (h : st.is_full = false) : Driver.readyLoopAux st l = some (.ok st) := by
  cases l <;> simp [Driver.readyLoopAux, h]

/-- Claim C8, amended: after the gadget teardown closes the endpoint and control
files, every operation that accesses the endpoint device file or ep0 — try_send
and the send path reaching it, try_recv, every EndpointControl method, and every
Custom control-endpoint operation — fails with the BrokenPipe-kind gadget-removed
error; operations that only drain the completion channel, such as flush, do not
touch the file and may succeed. -/
theorem removed_gadget_file_ops_fail (io : EndpointIoSt) (w : Ep0World) (st : CustomSt)
    (hio : io.alive = false) (hw : w.alive = false)
    (hclean : ∀ c ∈ io.aio.done, 0 ≤ c.res)
    (k : KernelSubmitOutcome) (dir : Direction) (ka : Nat) (buf : List Nat) :
    EndpointSender.try_send io k = .error .gadgetRemoved ∧
    (io.aio.is_full = false → EndpointSender.send io k = some (.error .gadgetRemoved)) ∧
    EndpointReceiver.try_recv io k = .error .gadgetRemoved ∧
    EndpointControl.unclaimed_fifo io ka = .error .gadgetRemoved ∧
    EndpointControl.discard_fifo io = .error .gadgetRemoved ∧
    EndpointControl.halt io dir = .error .gadgetRemoved ∧
    EndpointControl.clear_halt io = .error .gadgetRemoved ∧
    EndpointControl.real_address io ka = .error .gadgetRemoved ∧
    EndpointControl.descriptor io buf = .error .gadgetRemoved ∧
    EndpointControl.fd io ka = .error .gadgetRemoved ∧
    Custom.ep0 w = .error .gadgetRemoved ∧
    Custom.event st w = some (.error .gadgetRemoved, w, []) ∧
    Custom.event_timeout st w = some (.error .gadgetRemoved, w, []) ∧
    Custom.try_event st w = some (.error .gadgetRemoved, w, []) ∧
    Custom.real_address w ka = .error .gadgetRemoved ∧
    Custom.fd w ka = .error .gadgetRemoved := by
  obtain ⟨stD, hdrain⟩ := drainDoneAux_ok io.aio.done io.aio hclean
  have hts : EndpointSender.try_send io k = .error .gadgetRemoved := by
    unfold EndpointSender.try_send EndpointSender.try_ready drainDone
    rw [hdrain]
    simp [EndpointIo.file, hio]
  refine ⟨hts, ?_, ?_, ?_, ?_, ?_, ?_, ?_, ?_, ?_, ?_, ?_, ?_, ?_, ?_, ?_⟩
  · intro hnf
    unfold EndpointSender.send Driver.readyLoop
    rw [readyLoopAux_not_full _ _ hnf]
    exact congrArg some hts
  · simp [EndpointReceiver.try_recv, EndpointIo.file, hio]
  · simp [EndpointControl.unclaimed_fifo, EndpointIo.file, hio]
  · simp [EndpointControl.discard_fifo, EndpointIo.file, hio]
  · simp [EndpointControl.halt, EndpointIo.file, hio]
  · simp [EndpointControl.clear_halt, EndpointIo.file, hio]
  · simp [EndpointControl.real_address, EndpointIo.file, hio]
  · simp [EndpointControl.descriptor, EndpointIo.file, hio]
  · simp [EndpointControl.fd, EndpointIo.file, hio]
  · simp [Custom.ep0, hw]
  · simp [Custom.event, Custom.clear_prev_event, hw]
  · simp [Custom.event_timeout, hw]
  · simp [Custom.try_event, Custom.clear_prev_event, hw]
  · simp [Custom.real_address, Custom.ep0, hw]
  · simp [Custom.fd, Custom.ep0, hw]


/-- Witness for C3: the capacity scenario of a reactor of capacity 2. -/
theorem reactor_capacity_witness :
    0 < 2 ∧
    ((Driver.new 2).space ≤ 2 ∧
     (∀ k, k < 2 → (Driver.submit (submitN (Driver.new 2) k) .accepted).result =
       .ok (submitN (Driver.new 2) k).next_id) ∧
     (submitN (Driver.new 2) 2).is_full = true ∧
     (Driver.submit (submitN (Driver.new 2) 2) KernelSubmitOutcome.accepted).result =
       .error .noQueueSpace ∧
     (∀ c : CompletedOp,
       ∃ st1, Driver.completed (Driver.kernelComplete (submitN (Driver.new 2) 2) c) =
           some (some c, st1) ∧
         (Driver.submit st1 .accepted).result = .ok st1.next_id ∧
         (Driver.submit (Driver.submit st1 .accepted).state .accepted).result =
           .error .noQueueSpace)) :=
  ⟨by decide, reactor_capacity 2 (by decide) (Driver.new 2) .refl⟩

/-- Witness for C4: a rejected submission on a fresh reactor of capacity 2 with
id 3 already tracked by the worker and events 3 and 7 queued. -/
theorem submit_registers_before_kernel_witness :
    (Driver.new 2).is_full = false ∧ (Driver.new 2).next_id ∉ ([3] : List Nat) ∧
    (((Driver.submit (Driver.new 2) .notAccepted).trace.take 2 =
      [.sendInsert (Driver.new 2).next_id, .kernelSubmit (Driver.new 2).next_id]) ∧
    (KernelSubmitOutcome.notAccepted ≠ .accepted →
      (∃ e, (Driver.submit (Driver.new 2) .notAccepted).result = .error e) ∧
      (Driver.submit (Driver.new 2) .notAccepted).state.space = (Driver.new 2).space ∧
      (Driver.submit (Driver.new 2) .notAccepted).trace =
        [.sendInsert (Driver.new 2).next_id, .kernelSubmit (Driver.new 2).next_id,
         .sendRemove (Driver.new 2).next_id, .eventfdWrite] ∧
      runCmds [.insert (Driver.new 2).next_id, .remove (Driver.new 2).next_id] [3] [] =
        some ([3], []) ∧
      (Driver.new 2).next_id ∉ (deliverEvents [3] [3, 7] []).2.2) ∧
    (KernelSubmitOutcome.notAccepted = .accepted →
      (Driver.submit (Driver.new 2) .notAccepted).result = .ok (Driver.new 2).next_id ∧
      (Driver.submit (Driver.new 2) .notAccepted).state.space = (Driver.new 2).space - 1 ∧
      (Driver.submit (Driver.new 2) .notAccepted).trace =
        [.sendInsert (Driver.new 2).next_id, .kernelSubmit (Driver.new 2).next_id,
         .eventfdWrite])) :=
  ⟨by decide, by decide,
   submit_registers_before_kernel (Driver.new 2) .notAccepted (by decide) [3] [3, 7]
     (by decide)⟩

/-- Witness for C7: the length-prefix invariant on the concrete descriptor set
descsEx and its encoding. -/
theorem descs_length_invariant_witness :
    Descs.to_bytes false descsEx = .ok descsExBytes ∧
    (∃ fsR hsR ssR osR,
      encodeRecords Desc.to_bytes descsEx.fs_descrs = .ok fsR ∧
      encodeRecords Desc.to_bytes descsEx.hs_descrs = .ok hsR ∧
      encodeRecords Desc.to_bytes descsEx.ss_descrs = .ok ssR ∧
      encodeRecords (OsDesc.to_bytes false) descsEx.os_descrs = .ok osR ∧
      (∀ r, r ∈ fsR ++ hsR ++ ssR → r.head? = some r.length) ∧
      descsExBytes = u32le Descs.MAGIC_V2 ++ u32le descsExBytes.length ++
        u32le (effectiveFlags descsEx).bits ++ eventfdBytes descsEx.eventfd ++
        u32le descsEx.fs_descrs.length ++ u32le descsEx.hs_descrs.length ++
        u32le descsEx.ss_descrs.length ++ u32le descsEx.os_descrs.length ++
        fsR.flatten ++ hsR.flatten ++ ssR.flatten ++ osR.flatten) :=
  ⟨rfl, descs_length_invariant false descsEx descsExBytes rfl⟩

/-- Witness for C8, amended: the failures on a concrete torn-down endpoint and
control endpoint. -/
theorem removed_gadget_file_ops_fail_witness :
    removedEndpoint.alive = false ∧ removedWorld.alive = false ∧
    (EndpointSender.try_send removedEndpoint .accepted = .error .gadgetRemoved ∧
    (removedEndpoint.aio.is_full = false →
      EndpointSender.send removedEndpoint .accepted = some (.error .gadgetRemoved)) ∧
    EndpointReceiver.try_recv removedEndpoint .accepted = .error .gadgetRemoved ∧
    EndpointControl.unclaimed_fifo removedEndpoint 0 = .error .gadgetRemoved ∧
    EndpointControl.discard_fifo removedEndpoint = .error .gadgetRemoved ∧
    EndpointControl.halt removedEndpoint .deviceToHost = .error .gadgetRemoved ∧
    EndpointControl.clear_halt removedEndpoint = .error .gadgetRemoved ∧
    EndpointControl.real_address removedEndpoint 0 = .error .gadgetRemoved ∧
    EndpointControl.descriptor removedEndpoint [] = .error .gadgetRemoved ∧
    EndpointControl.fd removedEndpoint 0 = .error .gadgetRemoved ∧
    Custom.ep0 removedWorld = .error .gadgetRemoved ∧
    Custom.event ⟨none⟩ removedWorld =
      some (.error .gadgetRemoved, removedWorld, []) ∧
    Custom.event_timeout ⟨none⟩ removedWorld =
      some (.error .gadgetRemoved, removedWorld, []) ∧
    Custom.try_event ⟨none⟩ removedWorld =
      some (.error .gadgetRemoved, removedWorld, []) ∧
    Custom.real_address removedWorld 0 = .error .gadgetRemoved ∧
    Custom.fd removedWorld 0 = .error .gadgetRemoved) :=
  ⟨rfl, rfl,
   removed_gadget_file_ops_fail removedEndpoint removedWorld ⟨none⟩ rfl rfl
     (by intro c hc; simp [removedEndpoint, Driver.new] at hc) .accepted .deviceToHost
     0 []⟩

/-- Witness for C9: the uniform string table of the concrete builder
builderPlain. -/
theorem builder_strings_uniform_witness :
    CustomBuilder.ffs_descs builderPlain = .ok (plainDescs, plainStrs) ∧
    ((∀ (name : LangMap) (tbl : StrTable) (idx : Nat) (tbl' : StrTable),
        UniformTable tbl → addStrings name tbl = .ok (idx, tbl') → UniformTable tbl') ∧
    UniformTable plainStrs ∧
    Strings.to_bytes plainStrs ≠ .error .stringsDifferAcrossLanguages) :=
  ⟨rfl, builder_strings_uniform builderPlain plainDescs plainStrs rfl⟩

end UsbGadget
